import Mathlib

/-!
Verification of the ezctest test-execution core (src/ezctest.h) via a shallow
embedding in Lean 4.  Pattern matcher, fixture registry, cleanup (DEFER) stack,
per-test execution engine and the run orchestrator are translated from the C
source; theorems check the stated properties against these definitions.
-/

namespace Ezctest

/-! ## Constants (from ezctest.h, non-STM32 desktop configuration) -/

def EZCTEST_MAX_TESTS : Nat := 1024

def EZCTEST_MAX_NAME_LENGTH : Nat := 128

def EZCTEST_MAX_DEFER_CALLBACKS : Nat := 32

def EZCTEST_MAX_FIXTURES : Nat := 64

/-! ## Wildcard matcher

`ezctest_wildcard_match` in the C source is the classic two-pointer greedy
loop with single-star backtracking (`star_p` / `star_s`).  We embed the loop
as `wmLoop`: the third argument holds `none` when no `*` has been seen yet,
and `some (q, t)` for the C pair (`star_p + 1`, `star_s`): the pattern suffix
just after the last `*` and the string suffix at the time that `*` was
processed.  A backtrack (`p = star_p + 1; s = ++star_s`) becomes
`wmLoop q t.tail (some (q, t.tail))`. -/

/-- Character-level test from the C condition `*p == '?' || *p == *s`. -/
def charMatch (a c : Char) : Bool := a = '?' || a = c

/-- Star-bookkeeping component of the termination measure: length of the
stored string suffix (0 when no star has been recorded). -/
def starLen : Option (List Char × List Char) → Nat
  | some q => q.2.length
  | none => 0

/-- Lexicographic-order introduction helper for the three-component
termination measure of the matcher loop. -/
def lex3 {a1 b1 c1 a2 b2 c2 : Nat}
    (h : a1 < a2 ∨ (a1 = a2 ∧ (b1 < b2 ∨ (b1 = b2 ∧ c1 < c2)))) :
    Prod.Lex (fun x y => x < y) (Prod.Lex (fun x y => x < y) (fun x y => x < y))
      (a1, (b1, c1)) (a2, (b2, c2)) := by
  rcases h with h | ⟨rfl, h | ⟨rfl, h⟩⟩
  · exact Prod.Lex.left _ _ h
  · exact Prod.Lex.right _ (Prod.Lex.left _ _ h)
  · exact Prod.Lex.right _ (Prod.Lex.right _ h)

/-- The main loop of `ezctest_wildcard_match` (src/ezctest.h:688-718).
The C `while (*s)` loop body: on `*p == '*'` record the star and advance the
pattern; on `?`/literal match advance both; otherwise backtrack to the last
star (consuming one more string character) or fail.  After the loop, trailing
`*` are skipped and the match succeeds iff the pattern is exhausted. -/
def wmLoop : List Char → List Char → Option (List Char × List Char) → Bool
  | p, [], _ => (p.dropWhile (fun ch => ch = '*')).isEmpty
  | p, c :: s, star =>
    match p with
    | [] =>
      match star with
      | some (q, t) => wmLoop q t.tail (some (q, t.tail))
      | none => false
    | a :: p1 =>
      if a = '*' then wmLoop p1 (c :: s) (some (p1, c :: s))
      else if charMatch a c then wmLoop p1 s star
      else
        match star with
        | some (q, t) => wmLoop q t.tail (some (q, t.tail))
        | none => false
termination_by p s star => (max (starLen star) s.length, s.length, p.length)
decreasing_by
  · -- backtrack with empty pattern: stored suffix strictly shrinks
    apply lex3
    simp only [starLen, List.length_cons, List.length_tail, true_and, and_true]
    omega
  · -- star case: stored suffix may shrink, string equal, pattern shrinks
    apply lex3
    rcases star with _ | ⟨q, t⟩ <;> simp only [starLen, List.length_cons, List.length_tail, true_and, and_true] <;> omega
  · -- forward match: string strictly shrinks, stored suffix unchanged or larger
    apply lex3
    rcases star with _ | ⟨q, t⟩ <;> simp only [starLen, List.length_cons, List.length_tail, true_and, and_true] <;> omega
  · -- backtrack after mismatch: stored suffix strictly shrinks
    apply lex3
    simp only [starLen, List.length_cons, List.length_tail, true_and, and_true]
    omega

/-- Entry point `ezctest_wildcard_match(pattern, str)`: the loop starts with
no star recorded (`star_p = star_s = NULL`). -/
def ezctest_wildcard_match (pattern str : List Char) : Bool :=
  wmLoop pattern str none

/-! ## Reference glob semantics

`GlobMatch` is written from the spec wording: `*` matches any run of
characters (including the empty run), `?` matches exactly one character,
every other character matches only itself.  `gmatch` is an equivalent
recursive decision procedure used as the bridge between `GlobMatch` and the
imperative loop `wmLoop`. -/

/-- Declarative glob matching relation (spec side, for the refinement
statement of the matcher). -/
inductive GlobMatch : List Char → List Char → Prop
  | nil : GlobMatch [] []
  | qmark (c : Char) {p s : List Char} : GlobMatch p s →
      GlobMatch ('?' :: p) (c :: s)
  | lit {c : Char} {p s : List Char} : c ≠ '*' → c ≠ '?' → GlobMatch p s →
      GlobMatch (c :: p) (c :: s)
  | star (s1 : List Char) {p s2 : List Char} : GlobMatch p s2 →
      GlobMatch ('*' :: p) (s1 ++ s2)

/-- Textbook recursive glob matcher (proof vehicle, not part of the source
embedding). -/
def gmatch : List Char → List Char → Bool
  | [], [] => true
  | [], _ :: _ => false
  | a :: p, [] => if a = '*' then gmatch p [] else false
  | a :: p, c :: s =>
    if a = '*' then gmatch p (c :: s) || gmatch (a :: p) s
    else charMatch a c && gmatch p s
termination_by p s => (s.length, p.length)

/-- Bounded backtracking search: does `q` match some suffix of `t` obtained
by dropping at least one character (as the C loop explores on backtrack)? -/
def anyDrop (q t : List Char) : Bool :=
  (List.range t.length).any fun i => gmatch q (t.drop (i + 1))

/-- Invariant tying the current loop state `(p, s)` to the recorded star
`(q, t)`: the pattern consumed since the star was recorded is star-free, and
the string position equals the star position advanced by the same amount. -/
def StarInvHolds (p s : List Char) : Option (List Char × List Char) → Prop
  | none => True
  | some (q, t) => ∃ u, '*' ∉ u ∧ q = u ++ p ∧ s = t.drop u.length

/-- Intended value of the loop at a given state: match from here, or (with a
recorded star) succeed on one of the pending backtrack alternatives. -/
def mDenote (p s : List Char) : Option (List Char × List Char) → Bool
  | none => gmatch p s
  | some (q, t) => gmatch p s || anyDrop q t

/-! ## Filter expressions

`ezctest_matches_filter` (src/ezctest.h:727-783) builds the fully-qualified
name `"{suite}.{test}"` (snprintf into a `2*EZCTEST_MAX_NAME_LENGTH` buffer,
hence truncation to one less than that), copies the filter into a
`4*EZCTEST_MAX_NAME_LENGTH` buffer (again truncating), tokenizes it with
`strtok(.., ":")` and scans the tokens left to right; `strtok` semantics
(maximal nonempty runs between separators) are modeled by `strtok_split`. -/

/-- Length bound used for the tokenizer termination argument. -/
def length_dropWhile_le (p : Char → Bool) (l : List Char) :
    (l.dropWhile p).length ≤ l.length :=
  (List.dropWhile_sublist _).length_le

/-- strtok-style tokenizer: splits at `sep`, producing the maximal nonempty
runs of non-separator characters, in order (a token is the run starting at
the first non-separator character). -/
def strtok_split (sep : Char) : List Char → List (List Char)
  | [] => []
  | c :: rest =>
    if c = sep then strtok_split sep rest
    else (c :: rest.takeWhile (fun x => x ≠ sep)) ::
      strtok_split sep (rest.dropWhile (fun x => x ≠ sep))
termination_by l => l.length
decreasing_by
  · simp
  · simp only [List.length_cons]
    exact Nat.lt_succ_of_le (length_dropWhile_le _ _)

/-- The C check `token[0] == '-'` marking a negative (exclusion) token. -/
def tokIsNegative (tok : List Char) : Bool :=
  match tok with
  | [] => false
  | c :: _ => c = '-'

/-- Left-to-right token scan of `ezctest_matches_filter`: a negative token
whose body (`token + 1`) matches rejects immediately; a positive token that
matches accepts immediately; a fully scanned list rejects. -/
def matchTokens : List (List Char) → List Char → Bool
  | [], _ => false
  | tok :: rest, name =>
    if tokIsNegative tok then
      if ezctest_wildcard_match tok.tail name then false else matchTokens rest name
    else
      if ezctest_wildcard_match tok name then true else matchTokens rest name

/-- The filter match from the C source: empty (or absent) filter matches
everything, otherwise tokenize and scan. -/
def ezctest_matches_filter (suite test filter : List Char) : Bool :=
  if filter = [] then true
  else
    matchTokens
      (strtok_split ':' (filter.take (4 * EZCTEST_MAX_NAME_LENGTH - 1)))
      ((suite ++ '.' :: test).take (2 * EZCTEST_MAX_NAME_LENGTH - 1))

/-- Whether a token fires during the scan: a negative token fires when its
body matches, a positive one when it matches itself. -/
def tokMatches (tok name : List Char) : Bool :=
  if tokIsNegative tok then ezctest_wildcard_match tok.tail name
  else ezctest_wildcard_match tok name


/-! ## Fixture registry

`ezctest_fixture_t` holds per-suite optional setup/teardown function
pointers; here the pointers are numeric labels.  `ezctest_register_setup`
and `ezctest_register_teardown` (src/ezctest.h:596-647) scan the fixture
array for the first entry with the same suite name and update it, otherwise
append a new entry (unless `EZCTEST_MAX_FIXTURES` entries already exist, in
which case they fail and leave the table unchanged). -/

/-- Per-suite fixture binding (C struct `ezctest_fixture_t`). -/
structure ezctest_fixture_t where
  suite_name : List Char
  setup : Option Nat
  teardown : Option Nat
deriving DecidableEq

/-- The update scan of `ezctest_register_setup`: set the setup of the first
entry with this suite name; `none` when no entry matches. -/
def fixture_update_setup : List ezctest_fixture_t → List Char → Nat →
    Option (List ezctest_fixture_t)
  | [], _, _ => none
  | fx :: rest, suite, fn =>
    if fx.suite_name = suite then some ({ fx with setup := some fn } :: rest)
    else (fixture_update_setup rest suite fn).map (fx :: ·)

/-- The update scan of `ezctest_register_teardown`. -/
def fixture_update_teardown : List ezctest_fixture_t → List Char → Nat →
    Option (List ezctest_fixture_t)
  | [], _, _ => none
  | fx :: rest, suite, fn =>
    if fx.suite_name = suite then some ({ fx with teardown := some fn } :: rest)
    else (fixture_update_teardown rest suite fn).map (fx :: ·)

/-- `ezctest_register_setup`: update in place, else append
`{suite, setup, NULL}`; returns the new table and the C success flag. -/
def ezctest_register_setup (fxs : List ezctest_fixture_t) (suite : List Char)
    (fn : Nat) : List ezctest_fixture_t × Bool :=
  match fixture_update_setup fxs suite fn with
  | some fxs2 => (fxs2, true)
  | none =>
    if EZCTEST_MAX_FIXTURES ≤ fxs.length then (fxs, false)
    else (fxs ++ [⟨suite, some fn, none⟩], true)

/-- `ezctest_register_teardown`: update in place, else append
`{suite, NULL, teardown}`. -/
def ezctest_register_teardown (fxs : List ezctest_fixture_t) (suite : List Char)
    (fn : Nat) : List ezctest_fixture_t × Bool :=
  match fixture_update_teardown fxs suite fn with
  | some fxs2 => (fxs2, true)
  | none =>
    if EZCTEST_MAX_FIXTURES ≤ fxs.length then (fxs, false)
    else (fxs ++ [⟨suite, none, some fn⟩], true)

/-- `ezctest_find_fixture` (src/ezctest.h:1393-1401): first entry with the
given suite name. -/
def ezctest_find_fixture : List ezctest_fixture_t → List Char →
    Option ezctest_fixture_t
  | [], _ => none
  | fx :: rest, suite =>
    if fx.suite_name = suite then some fx else ezctest_find_fixture rest suite

/-! ## Execution engine

A test body (`test_func`) is modeled as a list of commands: plain
statements, `EZCTEST_DEFER` pushes, non-fatal `EXPECT_*` checks and fatal
`ASSERT_*` checks, the latter two with the runtime value of their condition.
Execution follows the macro bodies (src/ezctest.h:1286-1307, 2875-2888): a
check bumps `total_assertions`; a failing check additionally bumps
`failed_assertions` and sets `g_ezctest_current_assertion_failed`; a failing
fatal check also sets `g_ezctest_current_failed` and takes the `longjmp`
established by `ezctest_run_test_with_exception_guard`, abandoning the rest
of the body.  Observable actions are recorded as events. -/

/-- One statement of a test body. -/
inductive Cmd where
  | act (n : Nat)
  | deferPush (n : Nat)
  | expectCheck (ok : Bool)
  | assertCheck (ok : Bool)
deriving DecidableEq

/-- Observable events of a run (print statements and trace points). -/
inductive Ev where
  | runStart (suite test : List Char)
  | setupRun (suite : List Char)
  | stmt (n : Nat)
  | assertFailedMsg (fatal : Bool)
  | cleanup (n : Nat)
  | teardownRun (suite : List Char)
  | fatalNote
  | report (suite test : List Char) (passed : Bool)
  | noTests
  | header (count : Nat) (iso : Bool)
  | fallbackNote
  | abnormalNote (code : Int)
  | testCounts (ran passed failed : Nat)
  | assertSummary (total passed failed : Nat)
  | assertUnavailableNote
deriving DecidableEq

/-- Run statistics (C struct `ezctest_result_t`). -/
structure ezctest_result_t where
  total_tests : Nat
  passed_tests : Nat
  failed_tests : Nat
  total_assertions : Nat
  failed_assertions : Nat
deriving DecidableEq

/-- Global mutable state of the harness during a run: the statistics, the
per-test failure flags, the DEFER stack and the emitted events. -/
structure GState where
  result : ezctest_result_t
  current_failed : Bool
  current_assertion_failed : Bool
  defer_stack : List Nat
  events : List Ev
deriving DecidableEq

/-- Fresh state (all counters zero, as the C globals are initialized). -/
def init_gstate : GState :=
  { result := ⟨0, 0, 0, 0, 0⟩, current_failed := false,
    current_assertion_failed := false, defer_stack := [], events := [] }

/-- Execution of the body statements; the returned flag records whether a
failing fatal assertion fired the `longjmp` (ending the body early). -/
def runBody : List Cmd → GState → GState × Bool
  | [], st => (st, false)
  | c :: cs, st =>
    match c with
    | .act n => runBody cs { st with events := st.events ++ [Ev.stmt n] }
    | .deferPush n =>
      if EZCTEST_MAX_DEFER_CALLBACKS ≤ st.defer_stack.length then runBody cs st
      else runBody cs { st with defer_stack := st.defer_stack ++ [n] }
    | .expectCheck ok =>
      if ok then
        runBody cs { st with result.total_assertions := st.result.total_assertions + 1 }
      else
        runBody cs { st with
          result.total_assertions := st.result.total_assertions + 1,
          result.failed_assertions := st.result.failed_assertions + 1,
          current_assertion_failed := true,
          events := st.events ++ [Ev.assertFailedMsg false] }
    | .assertCheck ok =>
      if ok then
        runBody cs { st with result.total_assertions := st.result.total_assertions + 1 }
      else
        ({ st with
          result.total_assertions := st.result.total_assertions + 1,
          result.failed_assertions := st.result.failed_assertions + 1,
          current_assertion_failed := true,
          current_failed := true,
          events := st.events ++ [Ev.assertFailedMsg true] }, true)

/-- One registered test (C struct `ezctest_info_t`). -/
structure ezctest_info_t where
  suite_name : List Char
  test_name : List Char
  body : List Cmd
  enabled : Bool
  failed : Bool
deriving DecidableEq

/-- `ezctest_run_test` (src/ezctest.h:1548-1608): reset the per-test flags,
clear the DEFER stack, print the RUN line (suppressed in a worker process),
look up the fixture, run setup and the body under the guard, then always run
the DEFER stack in LIFO order, clear it, run teardown, print the
fatal-assertion note when the body was abandoned, and report OK/FAILED,
bumping the corresponding counter. -/
def ezctest_run_test (fxs : List ezctest_fixture_t) (is_worker : Bool)
    (t : ezctest_info_t) (st0 : GState) : GState :=
  let st1 := { st0 with current_failed := false, current_assertion_failed := false,
                        defer_stack := ([] : List Nat) }
  let st2 := if is_worker then st1
             else { st1 with events := st1.events ++ [Ev.runStart t.suite_name t.test_name] }
  let fx := ezctest_find_fixture fxs t.suite_name
  let st3 := match fx with
             | some f => if f.setup.isSome
                         then { st2 with events := st2.events ++ [Ev.setupRun t.suite_name] }
                         else st2
             | none => st2
  let bodyOut := runBody t.body st3
  let st4 := bodyOut.1
  let jumped := bodyOut.2
  let st5 := { st4 with
    events := st4.events ++ st4.defer_stack.reverse.map Ev.cleanup,
    defer_stack := ([] : List Nat) }
  let st6 := match fx with
             | some f => if f.teardown.isSome
                         then { st5 with events := st5.events ++ [Ev.teardownRun t.suite_name] }
                         else st5
             | none => st5
  let st7 := if jumped then { st6 with events := st6.events ++ [Ev.fatalNote] } else st6
  if st7.current_failed || st7.current_assertion_failed then
    { st7 with
      result.failed_tests := st7.result.failed_tests + 1,
      events := st7.events ++ [Ev.report t.suite_name t.test_name false] }
  else
    { st7 with
      result.passed_tests := st7.result.passed_tests + 1,
      events := st7.events ++ [Ev.report t.suite_name t.test_name true] }

/-! ## Run orchestrator -/

/-- Run configuration (C struct `ezctest_config_t`; color omitted,
`repeat_count` is the C `repeat` field, clamped to at least 1 by argument
parsing). -/
structure ezctest_config_t where
  filter : List Char
  repeat_count : Nat
  shuffle : Bool
  list_tests : Bool
  no_exec : Int
deriving DecidableEq

/-- Loop condition selecting the tests of a run: enabled and matching the
filter. -/
def enabled_matching (filter : List Char) (t : ezctest_info_t) : Bool :=
  t.enabled && ezctest_matches_filter t.suite_name t.test_name filter

/-- Isolation decision (src/ezctest.h:1851-1866): in automatic mode
(`no_exec = -1`) isolation is off when at most one test is selected or a
debugger is attached, on otherwise; `no_exec = 0` forces it on and any other
value forces it off. -/
def ezctest_use_process_isolation (no_exec : Int) (enabled_count : Nat)
    (dbg : Bool) : Bool :=
  if no_exec = -1 then
    if enabled_count ≤ 1 || dbg then false else true
  else if no_exec = 0 then true else false

/-- The scan of `ezctest_worker_mode` (src/ezctest.h:1615-1650): count the
enabled, filter-matching tests in registration order; at ordinal `widx` run
that single test and return its exit code (0 pass, 1 fail); if the ordinal
is past the end, report the error and return 1. -/
def worker_loop (fxs : List ezctest_fixture_t) (filter : List Char)
    (widx : Nat) : List ezctest_info_t → Nat → GState → GState × Nat
  | [], _, st => (st, 1)
  | t :: rest, tc, st =>
    if enabled_matching filter t then
      if tc = widx then
        let st2 := ezctest_run_test fxs true t st
        (st2, if st2.current_failed || st2.current_assertion_failed then 1 else 0)
      else worker_loop fxs filter widx rest (tc + 1) st
    else worker_loop fxs filter widx rest tc st

/-- `ezctest_worker_mode`: the child side of process isolation. -/
def ezctest_worker_mode (reg : List ezctest_info_t)
    (fxs : List ezctest_fixture_t) (filter : List Char) (widx : Nat)
    (st : GState) : GState × Nat :=
  worker_loop fxs filter widx reg 0 st

/-- Parent-side handling of one isolated test (the isolation branch of the
test loop, src/ezctest.h:1930-2010).  `code` is the value
`ezctest_exec_child` returned: 0 and 1 are the child's pass/fail exit codes
(the child printed the result), a negative value means the child process
could not be created (fall back to `ezctest_run_test` in-process), anything
else is an abnormal child termination which the parent reports and records
as a failure. -/
def iso_dispatch (fxs : List ezctest_fixture_t) (code : Int)
    (t : ezctest_info_t) (st : GState) : ezctest_info_t × GState :=
  let st1 := { st with events := st.events ++ [Ev.runStart t.suite_name t.test_name] }
  if code = 0 then
    (t, { st1 with result.passed_tests := st1.result.passed_tests + 1 })
  else if code = 1 then
    ({ t with failed := true },
     { st1 with result.failed_tests := st1.result.failed_tests + 1 })
  else if code < 0 then
    let st2 := { st1 with events := st1.events ++ [Ev.fallbackNote] }
    let st3 := ezctest_run_test fxs false t st2
    (if st3.current_failed || st3.current_assertion_failed
     then { t with failed := true } else t, st3)
  else
    let st2 := { st1 with events := st1.events ++
      [Ev.abnormalNote code, Ev.report t.suite_name t.test_name false] }
    ({ t with failed := true },
     { st2 with result.failed_tests := st2.result.failed_tests + 1 })

/-- One pass of the test loop (src/ezctest.h:1913-2020): skip disabled or
non-matching tests, bump `total_tests`, then run the test isolated (with
`spawn` giving the child exit code for each worker ordinal) or in-process,
recording the per-test failed flag. -/
def run_pass (fxs : List ezctest_fixture_t) (filter : List Char) (iso : Bool)
    (spawn : Nat → Int) :
    List ezctest_info_t → Nat → GState → List ezctest_info_t × GState
  | [], _, st => ([], st)
  | t :: rest, tc, st =>
    if enabled_matching filter t then
      let st1 := { st with result.total_tests := st.result.total_tests + 1 }
      if iso then
        let d := iso_dispatch fxs (spawn tc) t st1
        let r := run_pass fxs filter iso spawn rest (tc + 1) d.2
        (d.1 :: r.1, r.2)
      else
        let st2 := ezctest_run_test fxs false t st1
        let t2 := if st2.current_failed || st2.current_assertion_failed
                  then { t with failed := true } else t
        let r := run_pass fxs filter iso spawn rest tc st2
        (t2 :: r.1, r.2)
    else
      let r := run_pass fxs filter iso spawn rest tc st
      (t :: r.1, r.2)

/-- The repeat loop (src/ezctest.h:1884-2023): each pass resets the per-test
failed flags; on the first pass only, an enabled shuffle permutes the
registry (the `rand`-based Fisher-Yates permutation is abstracted by
`shuf`). -/
def run_repeats (fxs : List ezctest_fixture_t) (cfg : ezctest_config_t)
    (iso : Bool) (spawn : Nat → Nat → Int)
    (shuf : List ezctest_info_t → List ezctest_info_t) :
    Nat → Nat → List ezctest_info_t → GState → List ezctest_info_t × GState
  | 0, _, reg, st => (reg, st)
  | k + 1, passIdx, reg, st =>
    let reg1 := reg.map fun t => { t with failed := false }
    let reg2 := if cfg.shuffle = true ∧ passIdx = 0 then shuf reg1 else reg1
    let r := run_pass fxs cfg.filter iso (spawn passIdx) reg2 0 st
    run_repeats fxs cfg iso spawn shuf k (passIdx + 1) r.1 r.2

/-- `ezctest_run_all_tests_internal` (src/ezctest.h:1826-2070): count the
enabled matching tests; with none, print the notice and return 0.  Otherwise
decide isolation, print the header, run the repeat loop, print the summary
(test counts always; the assertion summary only without isolation — the
"N/A" line for isolation mode is disabled by `#if 0` and prints nothing) and
return 0 exactly when no test failed. -/
def ezctest_run_all_tests_internal (reg : List ezctest_info_t)
    (fxs : List ezctest_fixture_t) (cfg : ezctest_config_t) (dbg : Bool)
    (spawn : Nat → Nat → Int)
    (shuf : List ezctest_info_t → List ezctest_info_t) (st : GState) :
    List ezctest_info_t × GState × Nat :=
  let enabled_count := (reg.filter (enabled_matching cfg.filter)).length
  if enabled_count = 0 then
    (reg, { st with events := st.events ++ [Ev.noTests] }, 0)
  else
    let iso := ezctest_use_process_isolation cfg.no_exec enabled_count dbg
    let st1 := { st with events := st.events ++ [Ev.header enabled_count iso] }
    let r := run_repeats fxs cfg iso spawn shuf cfg.repeat_count 0 reg st1
    let st2 := r.2
    let st3 := { st2 with events := st2.events ++
      [Ev.testCounts st2.result.total_tests st2.result.passed_tests
        st2.result.failed_tests] }
    let st4 := if iso then st3
               else { st3 with events := st3.events ++
                 [Ev.assertSummary st3.result.total_assertions
                    (st3.result.total_assertions - st3.result.failed_assertions)
                    st3.result.failed_assertions] }
    (r.1, st4, if st4.result.failed_tests = 0 then 0 else 1)

/-! ## Specification-side views of a body execution -/

/-- Events a body generates, up to and including the first failing fatal
assertion. -/
def bodyTrace : List Cmd → List Ev
  | [] => []
  | .act n :: cs => .stmt n :: bodyTrace cs
  | .deferPush _ :: cs => bodyTrace cs
  | .expectCheck true :: cs => bodyTrace cs
  | .expectCheck false :: cs => .assertFailedMsg false :: bodyTrace cs
  | .assertCheck true :: cs => bodyTrace cs
  | .assertCheck false :: _ => [Ev.assertFailedMsg true]

/-- DEFER-stack contents after running the body from stack `s` (respecting
the capacity bound and stopping at a failing fatal assertion). -/
def deferSim : List Cmd → List Nat → List Nat
  | [], s => s
  | .deferPush n :: cs, s =>
    deferSim cs (if EZCTEST_MAX_DEFER_CALLBACKS ≤ s.length then s else s ++ [n])
  | .assertCheck false :: _, s => s
  | _ :: cs, s => deferSim cs s

/-- Whether the body is abandoned by a failing fatal assertion. -/
def bodyAborts : List Cmd → Bool
  | [] => false
  | .assertCheck false :: _ => true
  | _ :: cs => bodyAborts cs

/-- Number of `total_assertions` increments the body performs. -/
def bodyTotalAsserts : List Cmd → Nat
  | [] => 0
  | .expectCheck _ :: cs => 1 + bodyTotalAsserts cs
  | .assertCheck true :: cs => 1 + bodyTotalAsserts cs
  | .assertCheck false :: _ => 1
  | _ :: cs => bodyTotalAsserts cs

/-- Number of `failed_assertions` increments the body performs. -/
def bodyFailedAsserts : List Cmd → Nat
  | [] => 0
  | .expectCheck false :: cs => 1 + bodyFailedAsserts cs
  | .assertCheck false :: _ => 1
  | _ :: cs => bodyFailedAsserts cs

/-- Whether any executed check fails (the final value of
`g_ezctest_current_assertion_failed`). -/
def bodyAnyFail : List Cmd → Bool
  | [] => false
  | .expectCheck false :: _ => true
  | .assertCheck false :: _ => true
  | _ :: cs => bodyAnyFail cs

/-- The events `ezctest_run_test` appends for one test. -/
def testEvents (fxs : List ezctest_fixture_t) (w : Bool)
    (t : ezctest_info_t) : List Ev :=
  (if w then [] else [Ev.runStart t.suite_name t.test_name]) ++
  (match ezctest_find_fixture fxs t.suite_name with
   | some f => if f.setup.isSome then [Ev.setupRun t.suite_name] else []
   | none => []) ++
  bodyTrace t.body ++
  (deferSim t.body []).reverse.map Ev.cleanup ++
  (match ezctest_find_fixture fxs t.suite_name with
   | some f => if f.teardown.isSome then [Ev.teardownRun t.suite_name] else []
   | none => []) ++
  (if bodyAborts t.body then [Ev.fatalNote] else []) ++
  [Ev.report t.suite_name t.test_name (!(bodyAborts t.body || bodyAnyFail t.body))]

/-- Labels of statement events, in order. -/
def stmtIds (evs : List Ev) : List Nat :=
  evs.filterMap fun e => match e with | .stmt n => some n | _ => none

/-- Labels of plain statements of a body, in order. -/
def actIds (cmds : List Cmd) : List Nat :=
  cmds.filterMap fun c => match c with | .act n => some n | _ => none

/-- Labels of executed cleanup callbacks, in order. -/
def cleanupIds (evs : List Ev) : List Nat :=
  evs.filterMap fun e => match e with | .cleanup n => some n | _ => none

/-- Number of teardown executions recorded. -/
def countTeardown (evs : List Ev) : Nat :=
  (evs.filter fun e => match e with | .teardownRun _ => true | _ => false).length

/-- Per-test results reported, in order. -/
def reportEvs (evs : List Ev) : List (List Char × List Char × Bool) :=
  evs.filterMap fun e => match e with
    | .report s t b => some (s, t, b)
    | _ => none

/-- Final-summary events (test counts, assertion totals, the disabled
isolation "N/A" marker). -/
def isSummaryEv (e : Ev) : Bool :=
  match e with
  | .testCounts _ _ _ => true
  | .assertSummary _ _ _ => true
  | .assertUnavailableNote => true
  | _ => false

/-- The summary lines contained in an event list. -/
def summaryEvs (evs : List Ev) : List Ev :=
  evs.filter isSummaryEv


/-- Spec-side property for C9: the table holds exactly one binding for
`suite`, that binding has both the setup and the teardown set, and no two
bindings share a suite name. -/
def uniqueBothSet (fxs : List ezctest_fixture_t) (suite : List Char)
    (sfn tfn : Nat) : Prop :=
  (fxs.filter (fun fx => fx.suite_name = suite)).length = 1 ∧
  (∀ fx ∈ fxs, fx.suite_name = suite → fx.setup = some sfn ∧ fx.teardown = some tfn) ∧
  (fxs.map (fun fx => fx.suite_name)).Nodup

/-! ## Theorems about the pattern matcher and filter -/

/-- On the empty string a pattern matches iff it consists only of stars. -/
theorem gmatch_nil (p : List Char) : gmatch p [] = p.all (fun c => c = '*') := by
  induction p with
  | nil => simp [gmatch]
  | cons a p ih =>
    by_cases h : a = '*' <;> simp [gmatch, h, ih]

/-- The after-loop check of the C matcher (skip trailing stars, require end
of pattern) agrees with matching the empty string. -/
theorem dropWhile_star_eq_all (p : List Char) :
    (p.dropWhile (fun ch => ch = '*')).isEmpty = p.all (fun c => c = '*') := by
  induction p with
  | nil => rfl
  | cons a p ih =>
    by_cases h : a = '*' <;> simp [List.dropWhile, h, ih]

/-- Star patterns match a string iff the tail pattern matches some suffix. -/
theorem gmatch_star_iff (p s : List Char) :
    gmatch ('*' :: p) s = true ↔ ∃ i, gmatch p (s.drop i) = true := by
  induction s with
  | nil =>
    simp only [List.drop_nil]
    constructor
    · intro h
      exact ⟨0, by simpa [gmatch] using h⟩
    · rintro ⟨i, h⟩
      simpa [gmatch] using h
  | cons c s ih =>
    constructor
    · intro h
      have h2 : gmatch p (c :: s) = true ∨ gmatch ('*' :: p) s = true := by
        simpa [gmatch] using h
      rcases h2 with h | h
      · exact ⟨0, h⟩
      · rcases ih.mp h with ⟨i, hi⟩
        exact ⟨i + 1, by simpa using hi⟩
    · rintro ⟨i, hi⟩
      have h2 : gmatch p (c :: s) = true ∨ gmatch ('*' :: p) s = true := by
        cases i with
        | zero => exact Or.inl (by simpa using hi)
        | succ i => exact Or.inr (ih.mpr ⟨i, by simpa using hi⟩)
      simpa [gmatch] using h2

/-- Two booleans agreeing on truth are equal. -/
theorem bool_eq_of_iff {a b : Bool} (h : a = true ↔ b = true) : a = b := by
  cases a <;> cases b <;> simp_all

/-- Truth condition of `anyDrop`. -/
theorem anyDrop_iff (q t : List Char) :
    anyDrop q t = true ↔ ∃ i < t.length, gmatch q (t.drop (i + 1)) = true := by
  simp [anyDrop]

/-- Unfolding `anyDrop` along a cons cell. -/
theorem anyDrop_cons (q : List Char) (c : Char) (t : List Char) :
    anyDrop q (c :: t) = (gmatch q t || anyDrop q t) := by
  apply bool_eq_of_iff
  rw [anyDrop_iff]
  simp only [Bool.or_eq_true, anyDrop_iff, List.length_cons, List.drop_succ_cons]
  constructor
  · rintro ⟨i, hi, h⟩
    cases i with
    | zero => exact Or.inl (by simpa using h)
    | succ j => exact Or.inr ⟨j, by omega, h⟩
  · rintro (h | ⟨j, hj, h⟩)
    · exact ⟨0, by omega, by simpa using h⟩
    · exact ⟨j + 1, by omega, h⟩

/-- A star pattern matches `s` iff the tail pattern matches `s` itself or the
backtracking search succeeds on `s`. -/
theorem gmatch_star_or (p s : List Char) :
    gmatch ('*' :: p) s = (gmatch p s || anyDrop p s) := by
  induction s with
  | nil =>
    apply bool_eq_of_iff
    have h1 : gmatch ('*' :: p) [] = gmatch p [] := by simp [gmatch]
    simp [h1, anyDrop]
  | cons c s ih =>
    have h1 : gmatch ('*' :: p) (c :: s) = (gmatch p (c :: s) || gmatch ('*' :: p) s) := by
      simp [gmatch]
    rw [h1, ih, anyDrop_cons, ← Bool.or_assoc]

/-- Matching a dropped suffix under a leading star implies matching the whole
string. -/
theorem gmatch_star_absorb {p s : List Char} {k : Nat}
    (h : gmatch ('*' :: p) (s.drop k) = true) : gmatch ('*' :: p) s = true := by
  rcases (gmatch_star_iff p (s.drop k)).mp h with ⟨i, hi⟩
  rw [List.drop_drop] at hi
  exact (gmatch_star_iff p s).mpr ⟨k + i, hi⟩

/-- A star-free pattern segment consumes exactly its own length: if
`u ++ r` matches `w` and `u` has no star, then `u` is at most as long as `w`
and `r` matches the remainder. -/
theorem gmatch_starfree_split {u : List Char} (hu : '*' ∉ u) :
    ∀ {r w : List Char}, gmatch (u ++ r) w = true →
      u.length ≤ w.length ∧ gmatch r (w.drop u.length) = true := by
  induction u with
  | nil => intro r w h; simpa using h
  | cons a u ih =>
    intro r w h
    have ha : a ≠ '*' := fun hc => hu (by simp [hc])
    have hu2 : '*' ∉ u := fun hc => hu (by simp [hc])
    cases w with
    | nil =>
      exfalso
      have : gmatch (a :: (u ++ r)) [] = false := by simp [gmatch, ha]
      rw [List.cons_append] at h
      simp [this] at h
    | cons c w =>
      rw [List.cons_append] at h
      have h2 : (charMatch a c && gmatch (u ++ r) w) = true := by
        simpa [gmatch, ha] using h
      have h3 : gmatch (u ++ r) w = true := by
        simp only [Bool.and_eq_true] at h2
        exact h2.2
      rcases ih hu2 h3 with ⟨hlen, hrest⟩
      exact ⟨by simpa using Nat.succ_le_succ hlen, by simpa using hrest⟩

/-- Subsumption behind the greedy strategy: alternatives discarded when the
loop records a new star are already covered by that star. -/
theorem star_subsume {u p1 t : List Char} (hu : '*' ∉ u)
    (h : anyDrop (u ++ '*' :: p1) t = true) :
    gmatch ('*' :: p1) (t.drop u.length) = true := by
  rcases (anyDrop_iff _ _).mp h with ⟨i, _, hm⟩
  rcases gmatch_starfree_split hu hm with ⟨_, hrest⟩
  rw [List.drop_drop] at hrest
  rw [Nat.add_comm (i + 1) u.length] at hrest
  rw [← List.drop_drop] at hrest
  exact gmatch_star_absorb hrest

/-- Correctness of the backtracking loop relative to `gmatch`, at every state
satisfying the star invariant. -/
theorem wmLoop_eq_mDenote (p s : List Char) (star : Option (List Char × List Char))
    (hinv : StarInvHolds p s star) : wmLoop p s star = mDenote p s star := by
  induction p, s, star using wmLoop.induct with
  | case1 p star =>
    rcases star with _ | ⟨q, t⟩
    · rw [wmLoop, mDenote]
      rw [dropWhile_star_eq_all, ← gmatch_nil]
    · rcases hinv with ⟨u, hu, hq, hs⟩
      have hdrop : anyDrop q t = false := by
        by_contra hc
        have hc2 : anyDrop q t = true := by
          cases hcase : anyDrop q t
          · exact absurd hcase hc
          · rfl
        rcases (anyDrop_iff _ _).mp hc2 with ⟨i, hi, hm⟩
        rw [hq] at hm
        rcases gmatch_starfree_split hu hm with ⟨hlen, _⟩
        have hts : t.length ≤ u.length := by
          by_contra hts
          have : t.drop u.length ≠ [] := by
            apply List.ne_nil_of_length_pos
            rw [List.length_drop]
            omega
          exact this hs.symm
        rw [List.length_drop] at hlen
        omega
      rw [wmLoop, mDenote, hdrop]
      rw [dropWhile_star_eq_all, ← gmatch_nil]
      simp
  | case2 c s q t ih =>
    rcases hinv with ⟨u, hu, hq, hs⟩
    have hq2 : q = u := by simpa using hq
    have ht : t ≠ [] := by
      intro hc
      rw [hc] at hs
      simp at hs
    rcases List.exists_cons_of_ne_nil ht with ⟨b, t2, rfl⟩
    have hnew : StarInvHolds q t2 (some (q, t2)) := ⟨[], by simp, by simp, by simp⟩
    have hrec : wmLoop q t2 (some (q, t2)) = mDenote q t2 (some (q, t2)) := by
      simpa using ih hnew
    rw [wmLoop]
    simp only [List.tail_cons]
    rw [hrec, mDenote, mDenote, anyDrop_cons]
    have hfalse : gmatch [] (c :: s) = false := by simp [gmatch]
    rw [hfalse]
    simp
  | case3 c s =>
    rw [wmLoop, mDenote]
    simp [gmatch]
  | case4 c s star p1 ih =>
    have hnew : StarInvHolds p1 (c :: s) (some (p1, c :: s)) :=
      ⟨[], by simp, by simp, by simp⟩
    have hrec := ih hnew
    rw [mDenote] at hrec
    have hstar : gmatch ('*' :: p1) (c :: s) = (gmatch p1 (c :: s) || anyDrop p1 (c :: s)) :=
      gmatch_star_or p1 (c :: s)
    rcases star with _ | ⟨q, t⟩
    · rw [wmLoop]
      simp only [eq_self_iff_true, if_true]
      rw [hrec, mDenote, hstar]
    · rcases hinv with ⟨u, hu, hq, hs⟩
      rw [wmLoop]
      simp only [eq_self_iff_true, if_true]
      rw [hrec, mDenote]
      rw [← hstar]
      cases hA : anyDrop q t
      · simp
      · have hsub : gmatch ('*' :: p1) (t.drop u.length) = true := by
          apply star_subsume hu
          rw [← hq]
          exact hA
        rw [← hs] at hsub
        rw [hsub]
        simp
  | case5 c s star a p1 hns hcm ih =>
    have hgm : gmatch (a :: p1) (c :: s) = gmatch p1 s := by
      simp [gmatch, hns, hcm]
    rcases star with _ | ⟨q, t⟩
    · have hrec := ih trivial
      rw [wmLoop, if_neg hns, if_pos hcm, hrec, mDenote, mDenote, hgm]
    · rcases hinv with ⟨u, hu, hq, hs⟩
      have hnew : StarInvHolds p1 s (some (q, t)) := by
        refine ⟨u ++ [a], ?_, by simpa using hq, ?_⟩
        · intro hc
          rcases List.mem_append.mp hc with hc | hc
          · exact hu hc
          · have ha : '*' = a := List.mem_singleton.mp hc
            exact hns ha.symm
        · have hstep : s = (t.drop u.length).tail := by
            rw [← hs]
            rfl
          rw [hstep, List.tail_drop]
          simp [Nat.add_comm]
      have hrec := ih hnew
      rw [wmLoop, if_neg hns, if_pos hcm, hrec, mDenote, mDenote, hgm]
  | case6 c s a p1 hns hcm q t ih =>
    rcases hinv with ⟨u, hu, hq, hs⟩
    have ht : t ≠ [] := by
      intro hc
      rw [hc] at hs
      simp at hs
    rcases List.exists_cons_of_ne_nil ht with ⟨b, t2, rfl⟩
    have hnew : StarInvHolds q t2 (some (q, t2)) := ⟨[], by simp, by simp, by simp⟩
    have hrec : wmLoop q t2 (some (q, t2)) = mDenote q t2 (some (q, t2)) := by
      simpa using ih hnew
    rw [wmLoop, if_neg hns, if_neg hcm]
    simp only [List.tail_cons]
    rw [hrec, mDenote, mDenote, anyDrop_cons]
    have hfalse : gmatch (a :: p1) (c :: s) = false := by
      simp [gmatch, hns]
      intro hc
      exact absurd hc hcm
    rw [hfalse]
    simp
  | case7 c s a p1 hns hcm =>
    rw [wmLoop, if_neg hns, if_neg hcm, mDenote]
    have : gmatch (a :: p1) (c :: s) = false := by
      simp [gmatch, hns]
      intro hc
      exact absurd hc hcm
    rw [this]

/-- The C wildcard matcher computes exactly the reference matcher. -/
theorem wildcard_eq_gmatch (p s : List Char) :
    ezctest_wildcard_match p s = gmatch p s :=
  wmLoop_eq_mDenote p s none trivial

/-- Inversion for a star-headed pattern in the declarative relation. -/
theorem globMatch_star_inv {p s : List Char} (h : GlobMatch ('*' :: p) s) :
    ∃ s1 s2, s = s1 ++ s2 ∧ GlobMatch p s2 := by
  cases h with
  | lit hstar _ _ => exact absurd rfl hstar
  | star s1 h2 => exact ⟨s1, _, rfl, h2⟩

/-- Soundness: the recursive matcher only accepts declaratively matching
pairs. -/
theorem gmatch_sound : ∀ p s : List Char, gmatch p s = true → GlobMatch p s := by
  intro p s
  induction p, s using gmatch.induct with
  | case1 =>
    intro _
    exact GlobMatch.nil
  | case2 c s =>
    intro h
    simp [gmatch] at h
  | case3 p ih =>
    intro h
    have h2 : gmatch p [] = true := by simpa [gmatch] using h
    simpa using GlobMatch.star [] (ih h2)
  | case4 a p ha =>
    intro h
    simp [gmatch, ha] at h
  | case5 p c s ih1 ih2 =>
    intro h
    have h2 : gmatch p (c :: s) = true ∨ gmatch ('*' :: p) s = true := by
      simpa [gmatch] using h
    rcases h2 with h2 | h2
    · simpa using GlobMatch.star [] (ih1 h2)
    · rcases globMatch_star_inv (ih2 h2) with ⟨s1, s2, rfl, hm⟩
      exact GlobMatch.star (c :: s1) hm
  | case6 a p c s ha ih =>
    intro h
    have h2 : charMatch a c = true ∧ gmatch p s = true := by
      simpa [gmatch, ha] using h
    have hp : GlobMatch p s := ih h2.2
    have hcm : a = '?' ∨ a = c := by simpa [charMatch] using h2.1
    by_cases hq : a = '?'
    · subst hq
      exact GlobMatch.qmark c hp
    · rcases hcm with hcm | hcm
      · exact absurd hcm hq
      · subst hcm
        exact GlobMatch.lit ha hq hp

/-- Completeness: every declaratively matching pair is accepted by the
recursive matcher. -/
theorem gmatch_complete {p s : List Char} (h : GlobMatch p s) :
    gmatch p s = true := by
  induction h with
  | nil => simp [gmatch]
  | qmark c _ ih => simp [gmatch, charMatch, ih]
  | lit hne hnq _ ih =>
    rename_i c p s
    simp [gmatch, hne, charMatch, ih]
  | star s1 _ ih =>
    refine (gmatch_star_iff _ _).mpr ⟨s1.length, ?_⟩
    rw [List.drop_left]
    exact ih

/-- The wildcard matcher decides the declarative glob relation. -/
theorem wildcard_iff_globMatch (p s : List Char) :
    ezctest_wildcard_match p s = true ↔ GlobMatch p s := by
  rw [wildcard_eq_gmatch]
  exact ⟨gmatch_sound p s, gmatch_complete⟩

/-- Scan-order semantics of the token scan: the first token that fires
decides the result (accept for a positive token, reject for a negative one);
if no token fires the name is rejected. -/
theorem matchTokens_first_decides (toks : List (List Char)) (name : List Char) :
    matchTokens toks name =
      match toks.find? (fun tok => tokMatches tok name) with
      | some tok => !(tokIsNegative tok)
      | none => false := by
  induction toks with
  | nil => rfl
  | cons tok rest ih =>
    by_cases hneg : tokIsNegative tok = true
    · by_cases hm : ezctest_wildcard_match tok.tail name = true
      · have hf : tokMatches tok name = true := by simp [tokMatches, hneg, hm]
        rw [@List.find?_cons_of_pos _ (fun tk => tokMatches tk name) tok rest hf]
        simp [matchTokens, hneg, hm]
      · have hf : tokMatches tok name = false := by
          simp only [tokMatches, if_pos hneg]
          simpa using hm
        rw [@List.find?_cons_of_neg _ (fun tk => tokMatches tk name) tok rest (by simp [hf])]
        rw [← ih]
        simp at hm
        simp [matchTokens, hneg, hm]
    · by_cases hm : ezctest_wildcard_match tok name = true
      · have hf : tokMatches tok name = true := by
          simp [tokMatches, hneg, hm]
        rw [@List.find?_cons_of_pos _ (fun tk => tokMatches tk name) tok rest hf]
        simp [matchTokens, hneg, hm]
      · have hf : tokMatches tok name = false := by
          simp only [tokMatches, if_neg hneg]
          simpa using hm
        rw [@List.find?_cons_of_neg _ (fun tk => tokMatches tk name) tok rest (by simp [hf])]
        rw [← ih]
        simp at hm
        simp [matchTokens, hneg, hm]

/-- Lists all of whose elements satisfy the predicate are kept whole by
`takeWhile`. -/
theorem takeWhile_all_eq {p : Char → Bool} :
    ∀ {l : List Char}, (∀ x ∈ l, p x = true) → l.takeWhile p = l := by
  intro l
  induction l with
  | nil => intro _; rfl
  | cons a l ih =>
    intro h
    rw [List.takeWhile_cons]
    rw [h a (by simp)]
    simp [ih fun x hx => h x (by simp [hx])]

/-- Lists all of whose elements satisfy the predicate are emptied by
`dropWhile`. -/
theorem dropWhile_all_eq {p : Char → Bool} :
    ∀ {l : List Char}, (∀ x ∈ l, p x = true) → l.dropWhile p = [] := by
  intro l
  induction l with
  | nil => intro _; rfl
  | cons a l ih =>
    intro h
    rw [List.dropWhile_cons]
    rw [h a (by simp)]
    simp [ih fun x hx => h x (by simp [hx])]

/-- A nonempty, separator-free list tokenizes to itself. -/
theorem strtok_split_single {sep : Char} {l : List Char} (hmem : sep ∉ l)
    (hne : l ≠ []) : strtok_split sep l = [l] := by
  cases l with
  | nil => exact absurd rfl hne
  | cons c rest =>
    have hc : ¬c = sep := fun h => hmem (by simp [h])
    have hall : ∀ x ∈ rest, (fun x => decide (x ≠ sep)) x = true := by
      intro x hx
      simp only [decide_eq_true_iff]
      intro hxs
      exact hmem (by simp [hxs ▸ hx])
    rw [strtok_split, if_neg hc]
    rw [takeWhile_all_eq hall, dropWhile_all_eq hall, strtok_split]

/-! ## Theorems about the execution engine -/

/-- Closed-form description of `runBody`: counters, flags, DEFER stack and
events are given by the specification-side views, and the `longjmp` flag is
`bodyAborts`. -/
theorem runBody_spec (cmds : List Cmd) (st : GState) :
    runBody cmds st =
      ({ result := { total_tests := st.result.total_tests,
                     passed_tests := st.result.passed_tests,
                     failed_tests := st.result.failed_tests,
                     total_assertions := st.result.total_assertions + bodyTotalAsserts cmds,
                     failed_assertions := st.result.failed_assertions + bodyFailedAsserts cmds },
         current_failed := st.current_failed || bodyAborts cmds,
         current_assertion_failed := st.current_assertion_failed || bodyAnyFail cmds,
         defer_stack := deferSim cmds st.defer_stack,
         events := st.events ++ bodyTrace cmds }, bodyAborts cmds) := by
  induction cmds generalizing st with
  | nil =>
    simp [runBody, bodyTotalAsserts, bodyFailedAsserts, bodyAborts, bodyAnyFail,
      deferSim, bodyTrace]
  | cons c cs ih =>
    cases c with
    | act n =>
      simp [runBody, bodyTrace, deferSim, bodyAborts, bodyAnyFail,
        bodyTotalAsserts, bodyFailedAsserts, ih, List.append_assoc]
    | deferPush n =>
      by_cases hcap : EZCTEST_MAX_DEFER_CALLBACKS ≤ st.defer_stack.length <;>
        simp [runBody, bodyTrace, deferSim, bodyAborts, bodyAnyFail,
          bodyTotalAsserts, bodyFailedAsserts, ih, hcap]
    | expectCheck ok =>
      cases ok <;>
        simp [runBody, bodyTrace, deferSim, bodyAborts, bodyAnyFail,
          bodyTotalAsserts, bodyFailedAsserts, ih, List.append_assoc,
          Nat.add_assoc]
    | assertCheck ok =>
      cases ok <;>
        simp [runBody, bodyTrace, deferSim, bodyAborts, bodyAnyFail,
          bodyTotalAsserts, bodyFailedAsserts, ih, List.append_assoc,
          Nat.add_assoc]

/-- Closed-form description of `ezctest_run_test`: the statistics are
advanced by the body counts and the pass/fail classification, the per-test
flags hold the body outcome, the DEFER stack is cleared and the appended
events are `testEvents`. -/
theorem ezctest_run_test_spec (fxs : List ezctest_fixture_t) (w : Bool)
    (t : ezctest_info_t) (st : GState) :
    ezctest_run_test fxs w t st =
      { result := { total_tests := st.result.total_tests,
                    passed_tests := st.result.passed_tests +
                      (if bodyAborts t.body || bodyAnyFail t.body then 0 else 1),
                    failed_tests := st.result.failed_tests +
                      (if bodyAborts t.body || bodyAnyFail t.body then 1 else 0),
                    total_assertions := st.result.total_assertions + bodyTotalAsserts t.body,
                    failed_assertions := st.result.failed_assertions + bodyFailedAsserts t.body },
        current_failed := bodyAborts t.body,
        current_assertion_failed := bodyAnyFail t.body,
        defer_stack := [],
        events := st.events ++ testEvents fxs w t } := by
  rcases hfx : ezctest_find_fixture fxs t.suite_name with _ | f
  · by_cases hout : (bodyAborts t.body || bodyAnyFail t.body) = true <;>
      by_cases hab : bodyAborts t.body = true <;>
      cases w <;>
      simp_all [ezctest_run_test, runBody_spec, testEvents, hfx, List.append_assoc]
  · by_cases hout : (bodyAborts t.body || bodyAnyFail t.body) = true <;>
      by_cases hab : bodyAborts t.body = true <;>
      by_cases hsu : f.setup.isSome <;>
      by_cases htd : f.teardown.isSome <;>
      cases w <;>
      simp_all [ezctest_run_test, runBody_spec, testEvents, hfx, List.append_assoc]

/-- Statement labels distribute over event concatenation. -/
theorem stmtIds_append (a b : List Ev) :
    stmtIds (a ++ b) = stmtIds a ++ stmtIds b := by
  simp [stmtIds, List.filterMap_append]

/-- Cleanup labels distribute over event concatenation. -/
theorem cleanupIds_append (a b : List Ev) :
    cleanupIds (a ++ b) = cleanupIds a ++ cleanupIds b := by
  simp [cleanupIds, List.filterMap_append]

/-- Teardown counts distribute over event concatenation. -/
theorem countTeardown_append (a b : List Ev) :
    countTeardown (a ++ b) = countTeardown a + countTeardown b := by
  simp [countTeardown, List.filter_append]

/-- Reported results distribute over event concatenation. -/
theorem reportEvs_append (a b : List Ev) :
    reportEvs (a ++ b) = reportEvs a ++ reportEvs b := by
  simp [reportEvs, List.filterMap_append]

/-- Summary lines distribute over event concatenation. -/
theorem summaryEvs_append (a b : List Ev) :
    summaryEvs (a ++ b) = summaryEvs a ++ summaryEvs b := by
  simp [summaryEvs, List.filter_append]

/-- A body trace contains no cleanup events. -/
theorem cleanupIds_bodyTrace (cmds : List Cmd) :
    cleanupIds (bodyTrace cmds) = [] := by
  induction cmds with
  | nil => simp [bodyTrace, cleanupIds]
  | cons c cs ih =>
    cases c with
    | act n => simp [bodyTrace, cleanupIds]  at ih ⊢; simpa [cleanupIds] using ih
    | deferPush n => simpa [bodyTrace] using ih
    | expectCheck ok =>
      cases ok <;> simp [bodyTrace, cleanupIds] at ih ⊢ <;> simpa [cleanupIds] using ih
    | assertCheck ok =>
      cases ok with
      | false => simp [bodyTrace, cleanupIds]
      | true => simpa [bodyTrace] using ih

/-- A body trace contains no teardown events. -/
theorem countTeardown_bodyTrace (cmds : List Cmd) :
    countTeardown (bodyTrace cmds) = 0 := by
  induction cmds with
  | nil => simp [bodyTrace, countTeardown]
  | cons c cs ih =>
    cases c with
    | act n => simpa [bodyTrace, countTeardown] using ih
    | deferPush n => simpa [bodyTrace] using ih
    | expectCheck ok =>
      cases ok with
      | false => simpa [bodyTrace, countTeardown] using ih
      | true => simpa [bodyTrace] using ih
    | assertCheck ok =>
      cases ok with
      | false => simp [bodyTrace, countTeardown]
      | true => simpa [bodyTrace] using ih

/-- Executed cleanup labels of a mapped cleanup block are the labels
themselves. -/
theorem cleanupIds_map_cleanup (l : List Nat) :
    cleanupIds (l.map Ev.cleanup) = l := by
  induction l with
  | nil => simp [cleanupIds]
  | cons n l ih => simpa [cleanupIds] using ih

/-- A mapped cleanup block contains no statement events. -/
theorem stmtIds_map_cleanup (l : List Nat) :
    stmtIds (l.map Ev.cleanup) = [] := by
  induction l with
  | nil => simp [stmtIds]
  | cons n l ih => simpa [stmtIds] using ih

/-- A mapped cleanup block contains no teardown events. -/
theorem countTeardown_map_cleanup (l : List Nat) :
    countTeardown (l.map Ev.cleanup) = 0 := by
  induction l with
  | nil => simp [countTeardown]
  | cons n l ih => simpa [countTeardown] using ih

/-- In a body with no failing fatal assertion before it, an appended failing
fatal assertion aborts the body. -/
theorem bodyAborts_append_fatal (pre post : List Cmd)
    (h : ∀ c ∈ pre, c ≠ Cmd.assertCheck false) :
    bodyAborts (pre ++ Cmd.assertCheck false :: post) = true := by
  induction pre with
  | nil => simp [bodyAborts]
  | cons c cs ih =>
    have hc := h c (by simp)
    have hcs : ∀ c ∈ cs, c ≠ Cmd.assertCheck false := fun c hm => h c (by simp [hm])
    cases c with
    | act n => simpa [bodyAborts] using ih hcs
    | deferPush n => simpa [bodyAborts] using ih hcs
    | expectCheck ok => cases ok <;> simpa [bodyAborts] using ih hcs
    | assertCheck ok =>
      cases ok with
      | false => exact absurd rfl hc
      | true => simpa [bodyAborts] using ih hcs

/-- The trace of a body ending in its first failing fatal assertion. -/
theorem bodyTrace_append_fatal (pre post : List Cmd)
    (h : ∀ c ∈ pre, c ≠ Cmd.assertCheck false) :
    bodyTrace (pre ++ Cmd.assertCheck false :: post) =
      bodyTrace pre ++ [Ev.assertFailedMsg true] := by
  induction pre with
  | nil => simp [bodyTrace]
  | cons c cs ih =>
    have hc := h c (by simp)
    have hcs : ∀ c ∈ cs, c ≠ Cmd.assertCheck false := fun c hm => h c (by simp [hm])
    cases c with
    | act n => simp [bodyTrace, ih hcs]
    | deferPush n => simpa [bodyTrace] using ih hcs
    | expectCheck ok => cases ok <;> simp [bodyTrace, ih hcs]
    | assertCheck ok =>
      cases ok with
      | false => exact absurd rfl hc
      | true => simpa [bodyTrace] using ih hcs

/-- The DEFER stack at the first failing fatal assertion holds exactly the
pushes made before it. -/
theorem deferSim_append_fatal (pre post : List Cmd) (st : List Nat)
    (h : ∀ c ∈ pre, c ≠ Cmd.assertCheck false) :
    deferSim (pre ++ Cmd.assertCheck false :: post) st = deferSim pre st := by
  induction pre generalizing st with
  | nil => simp [deferSim]
  | cons c cs ih =>
    have hc := h c (by simp)
    have hcs : ∀ c ∈ cs, c ≠ Cmd.assertCheck false := fun c hm => h c (by simp [hm])
    cases c with
    | act n => simpa [deferSim] using ih _ hcs
    | deferPush n => simp [deferSim, ih _ hcs]
    | expectCheck ok => cases ok <;> simpa [deferSim] using ih _ hcs
    | assertCheck ok =>
      cases ok with
      | false => exact absurd rfl hc
      | true => simpa [deferSim] using ih _ hcs

/-- Failed-assertion count of a body ending in its first failing fatal
assertion. -/
theorem bodyFailedAsserts_append_fatal (pre post : List Cmd)
    (h : ∀ c ∈ pre, c ≠ Cmd.assertCheck false) :
    bodyFailedAsserts (pre ++ Cmd.assertCheck false :: post) =
      bodyFailedAsserts pre + 1 := by
  induction pre with
  | nil => simp [bodyFailedAsserts]
  | cons c cs ih =>
    have hc := h c (by simp)
    have hcs : ∀ c ∈ cs, c ≠ Cmd.assertCheck false := fun c hm => h c (by simp [hm])
    cases c with
    | act n => simpa [bodyFailedAsserts] using ih hcs
    | deferPush n => simpa [bodyFailedAsserts] using ih hcs
    | expectCheck ok =>
      cases ok with
      | false =>
        have h2 := ih hcs
        simp [bodyFailedAsserts]
        omega
      | true => simpa [bodyFailedAsserts] using ih hcs
    | assertCheck ok =>
      cases ok with
      | false => exact absurd rfl hc
      | true => simpa [bodyFailedAsserts] using ih hcs

/-- Statement events of the trace of a fatal-free body are exactly its plain
statements. -/
theorem stmtIds_bodyTrace (cmds : List Cmd)
    (h : ∀ c ∈ cmds, c ≠ Cmd.assertCheck false) :
    stmtIds (bodyTrace cmds) = actIds cmds := by
  induction cmds with
  | nil => simp [bodyTrace, stmtIds, actIds]
  | cons c cs ih =>
    have hc := h c (by simp)
    have hcs : ∀ c ∈ cs, c ≠ Cmd.assertCheck false := fun c hm => h c (by simp [hm])
    cases c with
    | act n => simp [bodyTrace, stmtIds, actIds] at ih ⊢; simp [ih hcs]
    | deferPush n => simp [bodyTrace, actIds]; simpa [actIds] using ih hcs
    | expectCheck ok =>
      cases ok with
      | false => simp [bodyTrace, stmtIds, actIds] at ih ⊢; simp [ih hcs]
      | true => simp [bodyTrace, actIds]; simpa [actIds] using ih hcs
    | assertCheck ok =>
      cases ok with
      | false => exact absurd rfl hc
      | true => simp [bodyTrace, actIds]; simpa [actIds] using ih hcs

/-! ## Claim theorems: execution engine -/

/-- C4: for every test execution, the cleanup stack executes the cleanups
pushed during the body (those the bounded DEFER stack accepted) exactly
once, in strict reverse-of-registration order — on every exit path, since
the body is arbitrary; in particular, pushing A, B, C yields the execution
order C, B, A on normal completion, on completion with a failed non-fatal
expectation, and on a fatal-assertion abort. -/
theorem claim_C4_cleanup_lifo :
    (∀ (fxs : List ezctest_fixture_t) (w : Bool) (t : ezctest_info_t) (st : GState),
      cleanupIds (ezctest_run_test fxs w t st).events =
        cleanupIds st.events ++ (deferSim t.body []).reverse) ∧
    (∀ a b c : Nat,
      cleanupIds (ezctest_run_test [] false
        ⟨"S".data, "T".data, [Cmd.deferPush a, Cmd.deferPush b, Cmd.deferPush c],
          true, false⟩ init_gstate).events = [c, b, a] ∧
      cleanupIds (ezctest_run_test [] false
        ⟨"S".data, "T".data, [Cmd.deferPush a, Cmd.deferPush b, Cmd.deferPush c,
          Cmd.expectCheck false], true, false⟩ init_gstate).events = [c, b, a] ∧
      cleanupIds (ezctest_run_test [] false
        ⟨"S".data, "T".data, [Cmd.deferPush a, Cmd.deferPush b, Cmd.deferPush c,
          Cmd.assertCheck false, Cmd.act 0], true, false⟩ init_gstate).events = [c, b, a]) := by
  have hmain : ∀ (fxs : List ezctest_fixture_t) (w : Bool) (t : ezctest_info_t) (st : GState),
      cleanupIds (ezctest_run_test fxs w t st).events =
        cleanupIds st.events ++ (deferSim t.body []).reverse := by
    intro fxs w t st
    rw [ezctest_run_test_spec]
    simp only [testEvents, cleanupIds_append, cleanupIds_bodyTrace,
      cleanupIds_map_cleanup]
    rcases ezctest_find_fixture fxs t.suite_name with _ | f <;>
      cases w <;>
      by_cases hab : bodyAborts t.body = true <;>
      simp_all [cleanupIds, List.append_assoc] <;>
      by_cases hsu : f.setup.isSome <;>
      by_cases htd : f.teardown.isSome <;>
      simp_all [cleanupIds]
  refine ⟨hmain, ?_⟩
  intro a b c
  refine ⟨?_, ?_, ?_⟩ <;>
    rw [hmain] <;>
    simp [deferSim, init_gstate, cleanupIds, EZCTEST_MAX_DEFER_CALLBACKS]

/-- C3: a fatal assertion failure is recorded (failed-assertion counter and
failed-test counter advance, the passed counter does not), no statement of
the body after the assertion executes, the cleanups pushed before it and the
suite teardown still run (the teardown exactly once), the fatal-termination
note is printed, and control returns to the engine (which finishes the
test normally rather than terminating the process). -/
theorem claim_C3_fatal_assert_containment
    (fxs : List ezctest_fixture_t) (w : Bool) (t : ezctest_info_t) (st : GState)
    (f : ezctest_fixture_t) (pre post : List Cmd)
    (hbody : t.body = pre ++ Cmd.assertCheck false :: post)
    (hpre : ∀ c ∈ pre, c ≠ Cmd.assertCheck false)
    (hfx : ezctest_find_fixture fxs t.suite_name = some f)
    (htd : f.teardown.isSome = true) :
    (ezctest_run_test fxs w t st).result.failed_tests = st.result.failed_tests + 1 ∧
    (ezctest_run_test fxs w t st).result.passed_tests = st.result.passed_tests ∧
    (ezctest_run_test fxs w t st).result.failed_assertions =
      st.result.failed_assertions + bodyFailedAsserts pre + 1 ∧
    stmtIds (ezctest_run_test fxs w t st).events = stmtIds st.events ++ actIds pre ∧
    Ev.fatalNote ∈ (ezctest_run_test fxs w t st).events ∧
    cleanupIds (ezctest_run_test fxs w t st).events =
      cleanupIds st.events ++ (deferSim pre []).reverse ∧
    countTeardown (ezctest_run_test fxs w t st).events =
      countTeardown st.events + 1 := by
  have hab : bodyAborts t.body = true := by
    rw [hbody]; exact bodyAborts_append_fatal pre post hpre
  refine ⟨?_, ?_, ?_, ?_, ?_, ?_, ?_⟩
  · rw [ezctest_run_test_spec]
    simp [hab]
  · rw [ezctest_run_test_spec]
    simp [hab]
  · rw [ezctest_run_test_spec]
    simp only [hbody, bodyFailedAsserts_append_fatal pre post hpre]
    omega
  · rw [ezctest_run_test_spec]
    simp only [testEvents, stmtIds_append, stmtIds_map_cleanup, hbody,
      bodyTrace_append_fatal pre post hpre, stmtIds_bodyTrace pre hpre, hfx]
    cases w <;>
      by_cases hsu : f.setup.isSome <;>
      by_cases hab2 : bodyAborts (pre ++ Cmd.assertCheck false :: post) = true <;>
      simp_all [stmtIds]
  · rw [ezctest_run_test_spec]
    simp [testEvents, hab]
  · rw [ezctest_run_test_spec]
    simp only [testEvents, cleanupIds_append, cleanupIds_bodyTrace,
      cleanupIds_map_cleanup, hbody, deferSim_append_fatal pre post [] hpre, hfx]
    cases w <;>
      by_cases hsu : f.setup.isSome <;>
      by_cases hab2 : bodyAborts (pre ++ Cmd.assertCheck false :: post) = true <;>
      simp_all [cleanupIds]
  · rw [ezctest_run_test_spec]
    simp only [testEvents, countTeardown_append, countTeardown_bodyTrace,
      countTeardown_map_cleanup, hfx, htd]
    cases w <;>
      by_cases hab2 : bodyAborts t.body = true <;>
      simp_all [countTeardown]

/-- Witness for C3 at a concrete test: suite `S` with a teardown, body
`act 1; DEFER 5; ASSERT(false); act 2`. -/
theorem claim_C3_witness :
    (ezctest_run_test [⟨"S".data, none, some 7⟩] false
        ⟨"S".data, "T".data,
          [Cmd.act 1, Cmd.deferPush 5, Cmd.assertCheck false, Cmd.act 2],
          true, false⟩ init_gstate).result.failed_tests =
      init_gstate.result.failed_tests + 1 ∧
    (ezctest_run_test [⟨"S".data, none, some 7⟩] false
        ⟨"S".data, "T".data,
          [Cmd.act 1, Cmd.deferPush 5, Cmd.assertCheck false, Cmd.act 2],
          true, false⟩ init_gstate).result.passed_tests =
      init_gstate.result.passed_tests ∧
    (ezctest_run_test [⟨"S".data, none, some 7⟩] false
        ⟨"S".data, "T".data,
          [Cmd.act 1, Cmd.deferPush 5, Cmd.assertCheck false, Cmd.act 2],
          true, false⟩ init_gstate).result.failed_assertions =
      init_gstate.result.failed_assertions +
        bodyFailedAsserts [Cmd.act 1, Cmd.deferPush 5] + 1 ∧
    stmtIds (ezctest_run_test [⟨"S".data, none, some 7⟩] false
        ⟨"S".data, "T".data,
          [Cmd.act 1, Cmd.deferPush 5, Cmd.assertCheck false, Cmd.act 2],
          true, false⟩ init_gstate).events =
      stmtIds init_gstate.events ++ actIds [Cmd.act 1, Cmd.deferPush 5] ∧
    Ev.fatalNote ∈ (ezctest_run_test [⟨"S".data, none, some 7⟩] false
        ⟨"S".data, "T".data,
          [Cmd.act 1, Cmd.deferPush 5, Cmd.assertCheck false, Cmd.act 2],
          true, false⟩ init_gstate).events ∧
    cleanupIds (ezctest_run_test [⟨"S".data, none, some 7⟩] false
        ⟨"S".data, "T".data,
          [Cmd.act 1, Cmd.deferPush 5, Cmd.assertCheck false, Cmd.act 2],
          true, false⟩ init_gstate).events =
      cleanupIds init_gstate.events ++
        (deferSim [Cmd.act 1, Cmd.deferPush 5] []).reverse ∧
    countTeardown (ezctest_run_test [⟨"S".data, none, some 7⟩] false
        ⟨"S".data, "T".data,
          [Cmd.act 1, Cmd.deferPush 5, Cmd.assertCheck false, Cmd.act 2],
          true, false⟩ init_gstate).events =
      countTeardown init_gstate.events + 1 :=
  claim_C3_fatal_assert_containment
    [⟨"S".data, none, some 7⟩] false
    ⟨"S".data, "T".data,
      [Cmd.act 1, Cmd.deferPush 5, Cmd.assertCheck false, Cmd.act 2],
      true, false⟩ init_gstate ⟨"S".data, none, some 7⟩
    [Cmd.act 1, Cmd.deferPush 5] [Cmd.act 2]
    rfl (by decide) (by decide) (by decide)

/-! ## Theorems about the fixture registry -/

/-- The setup update scan misses exactly when no binding has the suite. -/
theorem fixture_update_setup_not_found (suite : List Char) (fn : Nat) :
    ∀ fxs : List ezctest_fixture_t, (∀ fx ∈ fxs, fx.suite_name ≠ suite) →
      fixture_update_setup fxs suite fn = none := by
  intro fxs
  induction fxs with
  | nil => intro _; rfl
  | cons fx rest ih =>
    intro h
    have h1 : fx.suite_name ≠ suite := h fx (by simp)
    have h2 : ∀ g ∈ rest, g.suite_name ≠ suite := fun g hg => h g (by simp [hg])
    simp [fixture_update_setup, h1, ih h2]

/-- The teardown update scan misses exactly when no binding has the suite. -/
theorem fixture_update_teardown_not_found (suite : List Char) (fn : Nat) :
    ∀ fxs : List ezctest_fixture_t, (∀ fx ∈ fxs, fx.suite_name ≠ suite) →
      fixture_update_teardown fxs suite fn = none := by
  intro fxs
  induction fxs with
  | nil => intro _; rfl
  | cons fx rest ih =>
    intro h
    have h1 : fx.suite_name ≠ suite := h fx (by simp)
    have h2 : ∀ g ∈ rest, g.suite_name ≠ suite := fun g hg => h g (by simp [hg])
    simp [fixture_update_teardown, h1, ih h2]

/-- The setup update scan rewrites the first binding with the suite. -/
theorem fixture_update_setup_found (suite : List Char) (fn : Nat)
    (fx : ezctest_fixture_t) (post : List ezctest_fixture_t)
    (hfx : fx.suite_name = suite) :
    ∀ pre : List ezctest_fixture_t, (∀ g ∈ pre, g.suite_name ≠ suite) →
      fixture_update_setup (pre ++ fx :: post) suite fn =
        some (pre ++ { fx with setup := some fn } :: post) := by
  intro pre
  induction pre with
  | nil => intro _; simp [fixture_update_setup, hfx]
  | cons g rest ih =>
    intro h
    have h1 : g.suite_name ≠ suite := h g (by simp)
    have h2 : ∀ x ∈ rest, x.suite_name ≠ suite := fun x hx => h x (by simp [hx])
    simp [fixture_update_setup, h1, ih h2]

/-- The teardown update scan rewrites the first binding with the suite. -/
theorem fixture_update_teardown_found (suite : List Char) (fn : Nat)
    (fx : ezctest_fixture_t) (post : List ezctest_fixture_t)
    (hfx : fx.suite_name = suite) :
    ∀ pre : List ezctest_fixture_t, (∀ g ∈ pre, g.suite_name ≠ suite) →
      fixture_update_teardown (pre ++ fx :: post) suite fn =
        some (pre ++ { fx with teardown := some fn } :: post) := by
  intro pre
  induction pre with
  | nil => intro _; simp [fixture_update_teardown, hfx]
  | cons g rest ih =>
    intro h
    have h1 : g.suite_name ≠ suite := h g (by simp)
    have h2 : ∀ x ∈ rest, x.suite_name ≠ suite := fun x hx => h x (by simp [hx])
    simp [fixture_update_teardown, h1, ih h2]

/-- Fixture tables of the shape `pre ++ fx :: post`, where only `fx` carries
the suite and `fx` has the given setup and teardown, satisfy the C9
property. -/
theorem uniqueBothSet_middle (suite : List Char) (sfn tfn : Nat)
    (pre post : List ezctest_fixture_t) (fx : ezctest_fixture_t)
    (hfx : fx.suite_name = suite) (hsu : fx.setup = some sfn)
    (htd : fx.teardown = some tfn)
    (hpre : ∀ g ∈ pre, g.suite_name ≠ suite)
    (hpost : ∀ g ∈ post, g.suite_name ≠ suite)
    (hnd : ((pre ++ fx :: post).map (fun fx => fx.suite_name)).Nodup) :
    uniqueBothSet (pre ++ fx :: post) suite sfn tfn := by
  refine ⟨?_, ?_, hnd⟩
  · rw [List.filter_append]
    have h1 : pre.filter (fun fx => fx.suite_name = suite) = [] := by
      simp only [List.filter_eq_nil_iff]
      intro g hg
      simpa using hpre g hg
    have h2 : post.filter (fun fx => fx.suite_name = suite) = [] := by
      simp only [List.filter_eq_nil_iff]
      intro g hg
      simpa using hpost g hg
    simp [h1, h2, List.filter_cons, hfx]
  · intro g hg _
    rcases List.mem_append.mp hg with hg | hg
    · exact absurd hfx (by simp_all [hpre g hg])
    · rcases List.mem_cons.mp hg with rfl | hg
      · exact ⟨hsu, htd⟩
      · exact absurd hfx (by simp_all [hpost g hg])

/-- C9: registering a setup and then a teardown for a suite (or the other
way round) yields exactly one binding for that suite with both fields set;
the update path never duplicates a binding, the insert path appends a fresh
one, and the suite names stay pairwise distinct. -/
theorem claim_C9_fixture_insert_or_update
    (fxs : List ezctest_fixture_t) (suite : List Char) (sfn tfn : Nat)
    (hnd : (fxs.map (fun fx => fx.suite_name)).Nodup)
    (hcap : fxs.length < EZCTEST_MAX_FIXTURES) :
    ((ezctest_register_setup fxs suite sfn).2 = true ∧
     (ezctest_register_teardown (ezctest_register_setup fxs suite sfn).1 suite tfn).2 = true ∧
     uniqueBothSet
       (ezctest_register_teardown (ezctest_register_setup fxs suite sfn).1 suite tfn).1
       suite sfn tfn) ∧
    ((ezctest_register_teardown fxs suite tfn).2 = true ∧
     (ezctest_register_setup (ezctest_register_teardown fxs suite tfn).1 suite sfn).2 = true ∧
     uniqueBothSet
       (ezctest_register_setup (ezctest_register_teardown fxs suite tfn).1 suite sfn).1
       suite sfn tfn) := by
  by_cases hmem : ∃ fx ∈ fxs, fx.suite_name = suite
  · -- the suite is already bound: both registrations update in place
    rcases hmem with ⟨fx, hfxmem, hfxname⟩
    rcases List.append_of_mem hfxmem with ⟨pre, post, rfl⟩
    have hnames : (pre ++ fx :: post).map (fun fx => fx.suite_name) =
        pre.map (fun fx => fx.suite_name) ++ fx.suite_name ::
          post.map (fun fx => fx.suite_name) := by
      simp
    have hnd2 := hnd
    rw [hnames] at hnd2
    have hnotmem : fx.suite_name ∉ pre.map (fun fx => fx.suite_name) ++
        post.map (fun fx => fx.suite_name) := by
      have h3 := List.nodup_middle.mp hnd2
      exact (List.nodup_cons.mp h3).1
    have hpre : ∀ g ∈ pre, g.suite_name ≠ suite := by
      intro g hg hc
      apply hnotmem
      rw [hfxname]
      exact List.mem_append.mpr (Or.inl (by rw [← hc]; exact List.mem_map_of_mem _ hg))
    have hpost : ∀ g ∈ post, g.suite_name ≠ suite := by
      intro g hg hc
      apply hnotmem
      rw [hfxname]
      exact List.mem_append.mpr (Or.inr (by rw [← hc]; exact List.mem_map_of_mem _ hg))
    constructor
    · -- setup then teardown
      have h1 := fixture_update_setup_found suite sfn fx post hfxname pre hpre
      have hstep1 : ezctest_register_setup (pre ++ fx :: post) suite sfn =
          (pre ++ { fx with setup := some sfn } :: post, true) := by
        simp [ezctest_register_setup, h1]
      have h2 := fixture_update_teardown_found suite tfn
        { fx with setup := some sfn } post (by simpa using hfxname) pre hpre
      have hstep2 : ezctest_register_teardown
          (pre ++ { fx with setup := some sfn } :: post) suite tfn =
          (pre ++ { fx with setup := some sfn, teardown := some tfn } :: post, true) := by
        simp [ezctest_register_teardown, h2]
      rw [hstep1]
      simp only [hstep2]
      refine ⟨by trivial, by trivial, ?_⟩
      apply uniqueBothSet_middle suite sfn tfn pre post _ (by simpa using hfxname)
        (by simp) (by simp) hpre hpost
      simpa [hnames] using hnd2
    · -- teardown then setup
      have h1 := fixture_update_teardown_found suite tfn fx post hfxname pre hpre
      have hstep1 : ezctest_register_teardown (pre ++ fx :: post) suite tfn =
          (pre ++ { fx with teardown := some tfn } :: post, true) := by
        simp [ezctest_register_teardown, h1]
      have h2 := fixture_update_setup_found suite sfn
        { fx with teardown := some tfn } post (by simpa using hfxname) pre hpre
      have hstep2 : ezctest_register_setup
          (pre ++ { fx with teardown := some tfn } :: post) suite sfn =
          (pre ++ { fx with setup := some sfn, teardown := some tfn } :: post, true) := by
        simp [ezctest_register_setup, h2]
      rw [hstep1]
      simp only [hstep2]
      refine ⟨by trivial, by trivial, ?_⟩
      apply uniqueBothSet_middle suite sfn tfn pre post _ (by simpa using hfxname)
        (by simp) (by simp) hpre hpost
      simpa [hnames] using hnd2
  · -- fresh suite: the first registration appends, the second updates it
    push_neg at hmem
    have hnone1 := fixture_update_setup_not_found suite sfn fxs hmem
    have hnone2 := fixture_update_teardown_not_found suite tfn fxs hmem
    have hcap2 : ¬ EZCTEST_MAX_FIXTURES ≤ fxs.length := by omega
    have hndapp : ∀ z : ezctest_fixture_t, z.suite_name = suite →
        ((fxs ++ [z]).map (fun fx => fx.suite_name)).Nodup := by
      intro z hz
      rw [List.map_append]
      refine List.Nodup.append hnd (by simp) ?_
      intro a ha hb
      rcases List.mem_map.mp ha with ⟨g, hg, rfl⟩
      have hgz : g.suite_name = z.suite_name := by simpa using hb
      exact hmem g hg (hgz.trans hz)
    constructor
    · have hstep1 : ezctest_register_setup fxs suite sfn =
          (fxs ++ [⟨suite, some sfn, none⟩], true) := by
        simp [ezctest_register_setup, hnone1, hcap2]
      have h2 := fixture_update_teardown_found suite tfn
        ⟨suite, some sfn, none⟩ [] rfl fxs hmem
      have hstep2 : ezctest_register_teardown
          (fxs ++ [⟨suite, some sfn, none⟩]) suite tfn =
          (fxs ++ [⟨suite, some sfn, some tfn⟩], true) := by
        simp [ezctest_register_teardown]
        rw [h2]
      rw [hstep1]
      simp only [hstep2]
      refine ⟨by trivial, by trivial, ?_⟩
      exact uniqueBothSet_middle suite sfn tfn fxs [] _ rfl rfl rfl hmem
        (by simp) (hndapp ⟨suite, some sfn, some tfn⟩ rfl)
    · have hstep1 : ezctest_register_teardown fxs suite tfn =
          (fxs ++ [⟨suite, none, some tfn⟩], true) := by
        simp [ezctest_register_teardown, hnone2, hcap2]
      have h2 := fixture_update_setup_found suite sfn
        ⟨suite, none, some tfn⟩ [] rfl fxs hmem
      have hstep2 : ezctest_register_setup
          (fxs ++ [⟨suite, none, some tfn⟩]) suite sfn =
          (fxs ++ [⟨suite, some sfn, some tfn⟩], true) := by
        simp [ezctest_register_setup]
        rw [h2]
      rw [hstep1]
      simp only [hstep2]
      refine ⟨by trivial, by trivial, ?_⟩
      exact uniqueBothSet_middle suite sfn tfn fxs [] _ rfl rfl rfl hmem
        (by simp) (hndapp ⟨suite, some sfn, some tfn⟩ rfl)

/-- Witness for C9 on the empty fixture table with suite `S`. -/
theorem claim_C9_witness :
    ((ezctest_register_setup [] "S".data 3).2 = true ∧
     (ezctest_register_teardown (ezctest_register_setup [] "S".data 3).1 "S".data 4).2 = true ∧
     uniqueBothSet
       (ezctest_register_teardown (ezctest_register_setup [] "S".data 3).1 "S".data 4).1
       "S".data 3 4) ∧
    ((ezctest_register_teardown [] "S".data 4).2 = true ∧
     (ezctest_register_setup (ezctest_register_teardown [] "S".data 4).1 "S".data 3).2 = true ∧
     uniqueBothSet
       (ezctest_register_setup (ezctest_register_teardown [] "S".data 4).1 "S".data 3).1
       "S".data 3 4) :=
  claim_C9_fixture_insert_or_update [] "S".data 3 4 (by simp) (by decide)

/-! ## Claim theorems: orchestrator -/

/-- C5: the isolation decision obeys an explicit setting (`no_exec = 0`
forces isolation on, any other explicit value forces it off); in automatic
mode, isolation is on exactly when more than one enabled, filter-matching
test exists and no debugger is attached. -/
theorem claim_C5_isolation_decision
    (reg : List ezctest_info_t) (filter : List Char) (no_exec : Int) (dbg : Bool) :
    (no_exec = 0 → ezctest_use_process_isolation no_exec
        ((reg.filter (enabled_matching filter)).length) dbg = true) ∧
    (no_exec ≠ -1 → no_exec ≠ 0 → ezctest_use_process_isolation no_exec
        ((reg.filter (enabled_matching filter)).length) dbg = false) ∧
    (no_exec = -1 →
      (ezctest_use_process_isolation no_exec
          ((reg.filter (enabled_matching filter)).length) dbg = true ↔
        1 < (reg.filter (enabled_matching filter)).length ∧ dbg = false)) := by
  refine ⟨?_, ?_, ?_⟩
  · intro h
    have hne : no_exec ≠ -1 := by omega
    simp [ezctest_use_process_isolation, h]
  · intro h1 h2
    simp [ezctest_use_process_isolation, h1, h2]
  · intro h
    subst h
    set n := (reg.filter (enabled_matching filter)).length with hn
    by_cases hle : n ≤ 1
    · cases dbg <;> simp [ezctest_use_process_isolation, hle] <;> omega
    · cases dbg <;> simp [ezctest_use_process_isolation, hle] <;> omega

/-- Witness for C5: two enabled tests, empty filter, no debugger, automatic
mode gives isolation on. -/
theorem claim_C5_witness :
    1 < ([(⟨"A".data, "T".data, [], true, false⟩ : ezctest_info_t),
          ⟨"B".data, "U".data, [], true, false⟩].filter
            (enabled_matching [])).length ∧
    ezctest_use_process_isolation (-1)
      (([(⟨"A".data, "T".data, [], true, false⟩ : ezctest_info_t),
         ⟨"B".data, "U".data, [], true, false⟩].filter
           (enabled_matching [])).length) false = true :=
  ⟨by decide,
   ((claim_C5_isolation_decision
       [⟨"A".data, "T".data, [], true, false⟩, ⟨"B".data, "U".data, [], true, false⟩]
       [] (-1) false).2.2 rfl).mpr ⟨by decide, rfl⟩⟩

/-- C10: with no enabled test matching the filter, the run executes nothing
(only the notice is printed, no test result is reported), the statistics are
untouched, the registry is untouched and the exit code is 0. -/
theorem claim_C10_empty_run
    (reg : List ezctest_info_t) (fxs : List ezctest_fixture_t)
    (cfg : ezctest_config_t) (dbg : Bool) (spawn : Nat → Nat → Int)
    (shuf : List ezctest_info_t → List ezctest_info_t) (st : GState)
    (h : (reg.filter (enabled_matching cfg.filter)).length = 0) :
    (ezctest_run_all_tests_internal reg fxs cfg dbg spawn shuf st).2.2 = 0 ∧
    (ezctest_run_all_tests_internal reg fxs cfg dbg spawn shuf st).2.1.result = st.result ∧
    (ezctest_run_all_tests_internal reg fxs cfg dbg spawn shuf st).1 = reg ∧
    reportEvs (ezctest_run_all_tests_internal reg fxs cfg dbg spawn shuf st).2.1.events =
      reportEvs st.events := by
  refine ⟨?_, ?_, ?_, ?_⟩ <;>
    simp [ezctest_run_all_tests_internal, h, reportEvs_append, reportEvs]

/-- Witness for C10: one registered but disabled test. -/
theorem claim_C10_witness :
    (ezctest_run_all_tests_internal [⟨"A".data, "T".data, [], false, false⟩]
      [] ⟨[], 1, false, false, -1⟩ false (fun _ _ => 0) id init_gstate).2.2 = 0 ∧
    (ezctest_run_all_tests_internal [⟨"A".data, "T".data, [], false, false⟩]
      [] ⟨[], 1, false, false, -1⟩ false (fun _ _ => 0) id init_gstate).2.1.result =
      init_gstate.result ∧
    (ezctest_run_all_tests_internal [⟨"A".data, "T".data, [], false, false⟩]
      [] ⟨[], 1, false, false, -1⟩ false (fun _ _ => 0) id init_gstate).1 =
      [⟨"A".data, "T".data, [], false, false⟩] ∧
    reportEvs (ezctest_run_all_tests_internal [⟨"A".data, "T".data, [], false, false⟩]
      [] ⟨[], 1, false, false, -1⟩ false (fun _ _ => 0) id init_gstate).2.1.events =
      reportEvs init_gstate.events :=
  claim_C10_empty_run [⟨"A".data, "T".data, [], false, false⟩] []
    ⟨[], 1, false, false, -1⟩ false (fun _ _ => 0) id init_gstate (by decide)

/-- A body trace contains no report events. -/
theorem reportEvs_bodyTrace (cmds : List Cmd) :
    reportEvs (bodyTrace cmds) = [] := by
  induction cmds with
  | nil => simp [bodyTrace, reportEvs]
  | cons c cs ih =>
    cases c with
    | act n => simpa [bodyTrace, reportEvs] using ih
    | deferPush n => simpa [bodyTrace] using ih
    | expectCheck ok =>
      cases ok with
      | false => simpa [bodyTrace, reportEvs] using ih
      | true => simpa [bodyTrace] using ih
    | assertCheck ok =>
      cases ok with
      | false => simp [bodyTrace, reportEvs]
      | true => simpa [bodyTrace] using ih

/-- A mapped cleanup block contains no report events. -/
theorem reportEvs_map_cleanup (l : List Nat) :
    reportEvs (l.map Ev.cleanup) = [] := by
  induction l with
  | nil => simp [reportEvs]
  | cons n l ih => simpa [reportEvs] using ih

/-- Each test execution reports exactly one result: its own, passing iff the
body neither aborted fatally nor recorded a failed assertion. -/
theorem reportEvs_run_test (fxs : List ezctest_fixture_t) (w : Bool)
    (t : ezctest_info_t) (st : GState) :
    reportEvs (ezctest_run_test fxs w t st).events =
      reportEvs st.events ++
        [(t.suite_name, t.test_name,
          !(bodyAborts t.body || bodyAnyFail t.body))] := by
  rw [ezctest_run_test_spec]
  simp only [testEvents, reportEvs_append, reportEvs_bodyTrace,
    reportEvs_map_cleanup]
  rcases ezctest_find_fixture fxs t.suite_name with _ | f <;>
    cases w <;>
    by_cases hab : bodyAborts t.body = true <;>
    simp_all [reportEvs] <;>
    by_cases hsu : f.setup.isSome <;>
    by_cases htd : f.teardown.isSome <;>
    simp_all [reportEvs]

/-- C7: when the child process for an isolated test cannot be created
(negative exit code from `ezctest_exec_child`), the orchestrator does not
record an automatic failure: it runs the test in-process through
`ezctest_run_test` (after the fallback notice), and the recorded failed flag
and pass/fail counters are exactly the outcome of that in-process
execution. -/
theorem claim_C7_spawn_failure_fallback
    (fxs : List ezctest_fixture_t) (code : Int) (t : ezctest_info_t)
    (st : GState) (hcode : code < 0) (hfl : t.failed = false) :
    (iso_dispatch fxs code t st).2 =
      ezctest_run_test fxs false t
        { st with events := st.events ++
            [Ev.runStart t.suite_name t.test_name, Ev.fallbackNote] } ∧
    ((iso_dispatch fxs code t st).1.failed = true ↔
      (bodyAborts t.body || bodyAnyFail t.body) = true) ∧
    (iso_dispatch fxs code t st).2.result.passed_tests =
      st.result.passed_tests +
        (if bodyAborts t.body || bodyAnyFail t.body then 0 else 1) ∧
    (iso_dispatch fxs code t st).2.result.failed_tests =
      st.result.failed_tests +
        (if bodyAborts t.body || bodyAnyFail t.body then 1 else 0) := by
  have hc0 : ¬ code = 0 := by omega
  have hc1 : ¬ code = 1 := by omega
  by_cases hout : (bodyAborts t.body || bodyAnyFail t.body) = true <;>
    simp_all [iso_dispatch, hc0, hc1, hcode, ezctest_run_test_spec,
      List.append_assoc]

/-- Witness for C7: spawn failure (code -1) on a test with a passing body is
recorded as passed, not failed. -/
theorem claim_C7_witness :
    (iso_dispatch [] (-1)
        ⟨"A".data, "T".data, [Cmd.expectCheck true], true, false⟩ init_gstate).2 =
      ezctest_run_test [] false
        ⟨"A".data, "T".data, [Cmd.expectCheck true], true, false⟩
        { init_gstate with events := init_gstate.events ++
            [Ev.runStart "A".data "T".data, Ev.fallbackNote] } ∧
    ((iso_dispatch [] (-1)
        ⟨"A".data, "T".data, [Cmd.expectCheck true], true, false⟩ init_gstate).1.failed = true ↔
      (bodyAborts [Cmd.expectCheck true] || bodyAnyFail [Cmd.expectCheck true]) = true) ∧
    (iso_dispatch [] (-1)
        ⟨"A".data, "T".data, [Cmd.expectCheck true], true, false⟩ init_gstate).2.result.passed_tests =
      init_gstate.result.passed_tests +
        (if bodyAborts [Cmd.expectCheck true] || bodyAnyFail [Cmd.expectCheck true]
         then 0 else 1) ∧
    (iso_dispatch [] (-1)
        ⟨"A".data, "T".data, [Cmd.expectCheck true], true, false⟩ init_gstate).2.result.failed_tests =
      init_gstate.result.failed_tests +
        (if bodyAborts [Cmd.expectCheck true] || bodyAnyFail [Cmd.expectCheck true]
         then 1 else 0) :=
  claim_C7_spawn_failure_fallback [] (-1)
    ⟨"A".data, "T".data, [Cmd.expectCheck true], true, false⟩ init_gstate
    (by decide) rfl

/-- The worker scan runs exactly the test at ordinal `widx` (counting
enabled, filter-matching tests from `tc`) and returns its pass/fail exit
code. -/
theorem worker_loop_spec (fxs : List ezctest_fixture_t) (filter : List Char)
    (widx : Nat) :
    ∀ (reg : List ezctest_info_t) (tc : Nat) (st : GState)
      (tgt : ezctest_info_t), tc ≤ widx →
      (reg.filter (enabled_matching filter))[widx - tc]? = some tgt →
      worker_loop fxs filter widx reg tc st =
        (ezctest_run_test fxs true tgt st,
         if (ezctest_run_test fxs true tgt st).current_failed ||
            (ezctest_run_test fxs true tgt st).current_assertion_failed
         then 1 else 0) := by
  intro reg
  induction reg with
  | nil =>
    intro tc st tgt htc hget
    simp at hget
  | cons t rest ih =>
    intro tc st tgt htc hget
    by_cases hm : enabled_matching filter t = true
    · have hfc : (t :: rest).filter (enabled_matching filter) =
          t :: rest.filter (enabled_matching filter) :=
        List.filter_cons_of_pos hm
      rw [hfc] at hget
      by_cases heq : tc = widx
      · subst heq
        have hz : tc - tc = 0 := by omega
        rw [hz] at hget
        have htgt : tgt = t := by simpa using hget.symm
        subst htgt
        rw [worker_loop, if_pos hm, if_pos rfl]
      · have htc2 : tc + 1 ≤ widx := by omega
        have hsucc : widx - tc = (widx - (tc + 1)) + 1 := by omega
        rw [hsucc] at hget
        have hget2 : (rest.filter (enabled_matching filter))[widx - (tc + 1)]? =
            some tgt := by simpa using hget
        rw [worker_loop, if_pos hm, if_neg heq]
        exact ih (tc + 1) st tgt htc2 hget2
    · have hfc : (t :: rest).filter (enabled_matching filter) =
          rest.filter (enabled_matching filter) :=
        List.filter_cons_of_neg (by simpa using hm)
      rw [hfc] at hget
      rw [worker_loop, if_neg hm]
      exact ih tc st tgt htc hget

/-- C6: with a valid worker ordinal, worker mode executes exactly the test
at that position among the enabled, filter-matching tests (one result is
reported, and it is that test) and exits 0 when it passes and 1 when it
fails. -/
theorem claim_C6_worker_mode
    (reg : List ezctest_info_t) (fxs : List ezctest_fixture_t)
    (filter : List Char) (widx : Nat) (st : GState) (tgt : ezctest_info_t)
    (hget : (reg.filter (enabled_matching filter))[widx]? = some tgt) :
    ezctest_worker_mode reg fxs filter widx st =
      (ezctest_run_test fxs true tgt st,
       if (ezctest_run_test fxs true tgt st).current_failed ||
          (ezctest_run_test fxs true tgt st).current_assertion_failed
       then 1 else 0) ∧
    reportEvs (ezctest_worker_mode reg fxs filter widx st).1.events =
      reportEvs st.events ++
        [(tgt.suite_name, tgt.test_name,
          !(bodyAborts tgt.body || bodyAnyFail tgt.body))] ∧
    ((ezctest_worker_mode reg fxs filter widx st).2 = 0 ↔
      (bodyAborts tgt.body || bodyAnyFail tgt.body) = false) := by
  have hzero : widx - 0 = widx := by omega
  have hspec := worker_loop_spec fxs filter widx reg 0 st tgt (by omega)
    (by rw [hzero]; exact hget)
  rw [ezctest_worker_mode, hspec]
  refine ⟨rfl, ?_, ?_⟩
  · rw [reportEvs_run_test]
  · rw [ezctest_run_test_spec]
    by_cases hout : (bodyAborts tgt.body || bodyAnyFail tgt.body) = true <;>
      simp_all <;> (intro hc; simp_all)

/-- Witness for C6: two enabled tests, ordinal 1 picks the second, whose
fatal-assertion failure makes the exit code nonzero. -/
theorem claim_C6_witness :
    (ezctest_worker_mode
        [⟨"A".data, "T".data, [], true, false⟩,
         ⟨"B".data, "U".data, [Cmd.assertCheck false], true, false⟩]
        [] [] 1 init_gstate).2 = 0 ↔
      (bodyAborts [Cmd.assertCheck false] || bodyAnyFail [Cmd.assertCheck false]) = false :=
  (claim_C6_worker_mode
    [⟨"A".data, "T".data, [], true, false⟩,
     ⟨"B".data, "U".data, [Cmd.assertCheck false], true, false⟩]
    [] [] 1 init_gstate
    ⟨"B".data, "U".data, [Cmd.assertCheck false], true, false⟩ (by decide)).2.2

/-- A body trace contains no summary lines. -/
theorem summaryEvs_bodyTrace (cmds : List Cmd) :
    summaryEvs (bodyTrace cmds) = [] := by
  induction cmds with
  | nil => simp [bodyTrace, summaryEvs]
  | cons c cs ih =>
    cases c with
    | act n => simpa [bodyTrace, summaryEvs, isSummaryEv] using ih
    | deferPush n => simpa [bodyTrace] using ih
    | expectCheck ok =>
      cases ok with
      | false => simpa [bodyTrace, summaryEvs, isSummaryEv] using ih
      | true => simpa [bodyTrace] using ih
    | assertCheck ok =>
      cases ok with
      | false => simp [bodyTrace, summaryEvs, isSummaryEv]
      | true => simpa [bodyTrace] using ih

/-- A mapped cleanup block contains no summary lines. -/
theorem summaryEvs_map_cleanup (l : List Nat) :
    summaryEvs (l.map Ev.cleanup) = [] := by
  induction l with
  | nil => simp [summaryEvs]
  | cons n l ih => simpa [summaryEvs, isSummaryEv] using ih

/-- A test execution emits no summary lines. -/
theorem summaryEvs_run_test (fxs : List ezctest_fixture_t) (w : Bool)
    (t : ezctest_info_t) (st : GState) :
    summaryEvs (ezctest_run_test fxs w t st).events = summaryEvs st.events := by
  rw [ezctest_run_test_spec]
  simp only [testEvents, summaryEvs_append, summaryEvs_bodyTrace,
    summaryEvs_map_cleanup]
  rcases ezctest_find_fixture fxs t.suite_name with _ | f <;>
    cases w <;>
    by_cases hab : bodyAborts t.body = true <;>
    simp_all [summaryEvs, isSummaryEv] <;>
    by_cases hsu : f.setup.isSome <;>
    by_cases htd : f.teardown.isSome <;>
    simp_all [summaryEvs, isSummaryEv]

/-- The parent-side handling of one isolated test emits no summary lines. -/
theorem summaryEvs_iso_dispatch (fxs : List ezctest_fixture_t) (code : Int)
    (t : ezctest_info_t) (st : GState) :
    summaryEvs (iso_dispatch fxs code t st).2.events = summaryEvs st.events := by
  by_cases hc0 : code = 0
  · simp [iso_dispatch, hc0, summaryEvs_append, summaryEvs, isSummaryEv]
  · by_cases hc1 : code = 1
    · simp [iso_dispatch, hc0, hc1, summaryEvs_append, summaryEvs, isSummaryEv]
    · by_cases hneg : code < 0
      · simp only [iso_dispatch, if_neg hc0, if_neg hc1, if_pos hneg]
        rw [summaryEvs_run_test]
        simp [summaryEvs_append, summaryEvs, isSummaryEv]
      · simp [iso_dispatch, hc0, hc1, hneg, summaryEvs_append, summaryEvs,
          isSummaryEv]

/-- One pass of the test loop emits no summary lines. -/
theorem summaryEvs_run_pass (fxs : List ezctest_fixture_t) (filter : List Char)
    (iso : Bool) (spawn : Nat → Int) :
    ∀ (reg : List ezctest_info_t) (tc : Nat) (st : GState),
      summaryEvs (run_pass fxs filter iso spawn reg tc st).2.events =
        summaryEvs st.events := by
  intro reg
  induction reg with
  | nil => intro tc st; simp [run_pass]
  | cons t rest ih =>
    intro tc st
    by_cases hm : enabled_matching filter t = true
    · by_cases hiso : iso = true
      · subst hiso
        simp only [run_pass, if_pos hm, if_true]
        rw [ih]
        exact summaryEvs_iso_dispatch _ _ _ _
      · have hiso2 : iso = false := by simpa using hiso
        subst hiso2
        simp only [run_pass, if_pos hm, Bool.false_eq_true, if_false]
        rw [ih]
        exact summaryEvs_run_test _ _ _ _
    · simp only [run_pass, if_neg hm]
      exact ih tc st

/-- The repeat loop emits no summary lines. -/
theorem summaryEvs_run_repeats (fxs : List ezctest_fixture_t)
    (cfg : ezctest_config_t) (iso : Bool) (spawn : Nat → Nat → Int)
    (shuf : List ezctest_info_t → List ezctest_info_t) :
    ∀ (k passIdx : Nat) (reg : List ezctest_info_t) (st : GState),
      summaryEvs (run_repeats fxs cfg iso spawn shuf k passIdx reg st).2.events =
        summaryEvs st.events := by
  intro k
  induction k with
  | zero => intro passIdx reg st; simp [run_repeats]
  | succ k ih =>
    intro passIdx reg st
    simp only [run_repeats]
    rw [ih]
    exact summaryEvs_run_pass _ _ _ _ _ _ _

/-- C8 (amended): when isolation is active, the final report prints the
test-level counts but omits the assertion summary entirely — no totals and
no explicit "unavailable" marker (that line is disabled in the source);
without isolation the numeric assertion summary is printed.  In particular
no fabricated assertion count is ever reported under isolation. -/
theorem claim_C8_isolation_assertion_summary
    (reg : List ezctest_info_t) (fxs : List ezctest_fixture_t)
    (cfg : ezctest_config_t) (dbg : Bool) (spawn : Nat → Nat → Int)
    (shuf : List ezctest_info_t → List ezctest_info_t) (st : GState)
    (hne : (reg.filter (enabled_matching cfg.filter)).length ≠ 0) :
    summaryEvs (ezctest_run_all_tests_internal reg fxs cfg dbg spawn shuf st).2.1.events =
      summaryEvs st.events ++
        [Ev.testCounts
          (ezctest_run_all_tests_internal reg fxs cfg dbg spawn shuf st).2.1.result.total_tests
          (ezctest_run_all_tests_internal reg fxs cfg dbg spawn shuf st).2.1.result.passed_tests
          (ezctest_run_all_tests_internal reg fxs cfg dbg spawn shuf st).2.1.result.failed_tests] ++
        (if ezctest_use_process_isolation cfg.no_exec
            ((reg.filter (enabled_matching cfg.filter)).length) dbg then
          ([] : List Ev)
         else
          [Ev.assertSummary
            (ezctest_run_all_tests_internal reg fxs cfg dbg spawn shuf st).2.1.result.total_assertions
            ((ezctest_run_all_tests_internal reg fxs cfg dbg spawn shuf st).2.1.result.total_assertions -
              (ezctest_run_all_tests_internal reg fxs cfg dbg spawn shuf st).2.1.result.failed_assertions)
            (ezctest_run_all_tests_internal reg fxs cfg dbg spawn shuf st).2.1.result.failed_assertions]) := by
  have hdr : ∀ iso2 : Bool,
      List.filter isSummaryEv
        (run_repeats fxs cfg iso2 spawn shuf cfg.repeat_count 0 reg
          { st with events := st.events ++
              [Ev.header ((reg.filter (enabled_matching cfg.filter)).length) iso2] }).2.events =
        List.filter isSummaryEv st.events := by
    intro iso2
    have h1 := summaryEvs_run_repeats fxs cfg iso2 spawn shuf cfg.repeat_count 0 reg
      { st with events := st.events ++
          [Ev.header ((reg.filter (enabled_matching cfg.filter)).length) iso2] }
    simp only [summaryEvs] at h1
    rw [h1]
    simp [List.filter_append, isSummaryEv]
  by_cases hiso : ezctest_use_process_isolation cfg.no_exec
      ((reg.filter (enabled_matching cfg.filter)).length) dbg = true <;>
    simp only [ezctest_run_all_tests_internal, if_neg hne, hiso, if_true,
      if_false, summaryEvs_append, summaryEvs_run_repeats] <;>
    simp [summaryEvs_append, summaryEvs_run_repeats, summaryEvs, isSummaryEv,
      hiso] <;>
    exact hdr _

/-- Witness for C8 (amended) and counterexample evidence: one isolated run
shows only the test-counts line. -/
theorem claim_C8_witness :
    summaryEvs (ezctest_run_all_tests_internal
        [⟨"A".data, "T".data, [], true, false⟩] []
        ⟨[], 1, false, false, 0⟩ false (fun _ _ => 0) id init_gstate).2.1.events =
      summaryEvs init_gstate.events ++
        [Ev.testCounts
          (ezctest_run_all_tests_internal
            [⟨"A".data, "T".data, [], true, false⟩] []
            ⟨[], 1, false, false, 0⟩ false (fun _ _ => 0) id init_gstate).2.1.result.total_tests
          (ezctest_run_all_tests_internal
            [⟨"A".data, "T".data, [], true, false⟩] []
            ⟨[], 1, false, false, 0⟩ false (fun _ _ => 0) id init_gstate).2.1.result.passed_tests
          (ezctest_run_all_tests_internal
            [⟨"A".data, "T".data, [], true, false⟩] []
            ⟨[], 1, false, false, 0⟩ false (fun _ _ => 0) id init_gstate).2.1.result.failed_tests] ++
        (if ezctest_use_process_isolation 0
            (([(⟨"A".data, "T".data, [], true, false⟩ : ezctest_info_t)].filter
              (enabled_matching [])).length) false then
          ([] : List Ev)
         else
          [Ev.assertSummary
            (ezctest_run_all_tests_internal
              [⟨"A".data, "T".data, [], true, false⟩] []
              ⟨[], 1, false, false, 0⟩ false (fun _ _ => 0) id init_gstate).2.1.result.total_assertions
            ((ezctest_run_all_tests_internal
              [⟨"A".data, "T".data, [], true, false⟩] []
              ⟨[], 1, false, false, 0⟩ false (fun _ _ => 0) id init_gstate).2.1.result.total_assertions -
              (ezctest_run_all_tests_internal
                [⟨"A".data, "T".data, [], true, false⟩] []
                ⟨[], 1, false, false, 0⟩ false (fun _ _ => 0) id init_gstate).2.1.result.failed_assertions)
            (ezctest_run_all_tests_internal
              [⟨"A".data, "T".data, [], true, false⟩] []
              ⟨[], 1, false, false, 0⟩ false (fun _ _ => 0) id init_gstate).2.1.result.failed_assertions]) :=
  claim_C8_isolation_assertion_summary
    [⟨"A".data, "T".data, [], true, false⟩] [] ⟨[], 1, false, false, 0⟩ false
    (fun _ _ => 0) id init_gstate (by decide)

/-- Counterexample for C8 as stated: a run with process isolation forced on
(one passing test) emits neither an explicit assertion-unavailable marker
nor any assertion summary — only the test-counts line — contradicting the
claim that the report explicitly marks the assertion totals as
unavailable. -/
theorem claim_C8_counterexample :
    ezctest_use_process_isolation 0 1 false = true ∧
    summaryEvs (ezctest_run_all_tests_internal
        [⟨"A".data, "T".data, [], true, false⟩] []
        ⟨[], 1, false, false, 0⟩ false (fun _ _ => 0) id init_gstate).2.1.events =
      [Ev.testCounts 1 1 0] ∧
    Ev.assertUnavailableNote ∉ (ezctest_run_all_tests_internal
        [⟨"A".data, "T".data, [], true, false⟩] []
        ⟨[], 1, false, false, 0⟩ false (fun _ _ => 0) id init_gstate).2.1.events := by
  refine ⟨by decide, by decide, by decide⟩

/-! ## Claim theorems: pattern matcher and filter -/

/-- C1: the code behavior of the filter scan at the claimed inputs.  The
scan accepts on the first matching token, so the positive token `Foo.*`
admits `Foo.SlowOne` before the negative token `-Foo.Slow*` is ever
consulted — the code includes `Foo.SlowOne`, contradicting the claimed
exclusion (and the README example `*:-*Slow*`, which the code also fails to
exclude).  `Foo.FastOne` is included and `Bar.Anything` rejected as
claimed. -/
theorem claim_C1_filter_scan_code_behavior :
    ezctest_matches_filter "Foo".data "SlowOne".data "Foo.*:-Foo.Slow*".data = true ∧
    ezctest_matches_filter "Foo".data "FastOne".data "Foo.*:-Foo.Slow*".data = true ∧
    ezctest_matches_filter "Bar".data "Anything".data "Foo.*:-Foo.Slow*".data = false ∧
    ezctest_matches_filter "Math".data "SlowOne".data "*:-*Slow*".data = true := by
  refine ⟨?_, ?_, ?_, ?_⟩ <;>
    simp [ezctest_matches_filter, EZCTEST_MAX_NAME_LENGTH, strtok_split,
      matchTokens, tokIsNegative, ezctest_wildcard_match, wmLoop, charMatch]

/-- C2: the wildcard matcher decides exactly the declarative glob reference
semantics (`*` = any run including the empty one, `?` = exactly one
character, anything else literal); the empty filter matches every name; and
a single positive separator-free pattern within the buffer bounds is
matched against the fully-qualified name `"{suite}.{test}"`. -/
theorem claim_C2_matcher_glob_reference :
    (∀ p s : List Char, ezctest_wildcard_match p s = true ↔ GlobMatch p s) ∧
    (∀ suite test : List Char, ezctest_matches_filter suite test [] = true) ∧
    (∀ suite test pat : List Char,
      pat ≠ [] →
      tokIsNegative pat = false →
      ':' ∉ pat →
      pat.length ≤ 4 * EZCTEST_MAX_NAME_LENGTH - 1 →
      (suite ++ '.' :: test).length ≤ 2 * EZCTEST_MAX_NAME_LENGTH - 1 →
      ezctest_matches_filter suite test pat =
        ezctest_wildcard_match pat (suite ++ '.' :: test)) := by
  refine ⟨wildcard_iff_globMatch, ?_, ?_⟩
  · intro suite test
    simp [ezctest_matches_filter]
  · intro suite test pat hne hpos hnosep hlen1 hlen2
    have htake1 : pat.take (4 * EZCTEST_MAX_NAME_LENGTH - 1) = pat :=
      List.take_of_length_le hlen1
    have htake2 : (suite ++ '.' :: test).take (2 * EZCTEST_MAX_NAME_LENGTH - 1) =
        suite ++ '.' :: test :=
      List.take_of_length_le hlen2
    rw [ezctest_matches_filter, if_neg hne, htake1, htake2,
      strtok_split_single hnosep hne]
    cases hw : ezctest_wildcard_match pat (suite ++ '.' :: test) <;>
      simp [matchTokens, hpos, hw]

/-- Witness for C2: a concrete glob match, the empty filter, and a single
positive token matched against the fully-qualified name. -/
theorem claim_C2_witness :
    (ezctest_wildcard_match "F?o*".data "Foo.Bar".data = true ∧
     GlobMatch "F?o*".data "Foo.Bar".data) ∧
    ezctest_matches_filter "Foo".data "Bar".data [] = true ∧
    ezctest_matches_filter "Foo".data "Bar".data "Foo.*".data =
      ezctest_wildcard_match "Foo.*".data ("Foo".data ++ '.' :: "Bar".data) := by
  refine ⟨⟨?_, ?_⟩, ?_, ?_⟩
  · simp [ezctest_wildcard_match, wmLoop, charMatch]
  · exact (claim_C2_matcher_glob_reference.1 "F?o*".data "Foo.Bar".data).mp
      (by simp [ezctest_wildcard_match, wmLoop, charMatch])
  · exact claim_C2_matcher_glob_reference.2.1 "Foo".data "Bar".data
  · exact claim_C2_matcher_glob_reference.2.2 "Foo".data "Bar".data "Foo.*".data
      (by decide) (by decide) (by decide) (by decide) (by decide)

end Ezctest
